import Mathlib

/-!
Verification of the PRISM-Core tool-calling orchestration engine, workflow
step executor and dynamic tool execution contract.

Shallow embedding of the Python sources:
  * `prism_core/core/tools/registry.py`      (ToolRegistry)
  * `prism_core/core/tools/base.py`          (BaseTool.validate_parameters)
  * `prism_core/core/tools/dynamic_tool.py`  (DynamicTool)
  * `prism_core/core/agents/workflow_manager.py` (WorkflowManager)
  * `prism_core/core/llm/prism_llm_service.py`   (PrismLLMService)
  * `core/llm/tool_orchestrator.py`          (ToolOrchestrator)
  * `prism_core/core/llm/tools.py`           (client-scoped ToolRegistry)

Python dynamic values are embedded as `PyVal`.  External effects (HTTP,
`eval`/`exec`, the chat-completion backend, the random generator and the
wall clock) are parameters ("oracles") of the embedded functions; a Python
exception is an `Except.error` carrying `str(e)`.  Wall-clock timestamp
fields (`execution_time_ms`, `start_time`, `end_time`, `created_at`) are
omitted from the embedded records: they are environmental and no verified
property mentions them.
-/

/-- Embedding of Python values (the `Any`-typed data flowing through the
engine): `None`, booleans, integers, strings, lists and string-keyed
dictionaries (dictionaries keep insertion order, as in Python 3.7+). -/
inductive PyVal where
  | vnone
  | vbool (b : Bool)
  | vint (n : Int)
  | vstr (s : String)
  | vlist (xs : List PyVal)
  | vdict (entries : List (String × PyVal))

/-- A Python dictionary with string keys (`Dict[str, Any]`). -/
abbrev PyDict := List (String × PyVal)

/-- Python truthiness (`bool(v)`). -/
def pyTruthy : PyVal → Bool
  | .vnone => false
  | .vbool b => b
  | .vint n => n != 0
  | .vstr s => !s.isEmpty
  | .vlist xs => !xs.isEmpty
  | .vdict es => !es.isEmpty

/-- Python `v == s` for a string literal `s`: true only for equal `str`s
(Python never equates a string with a non-string). -/
def pyEqStr (v : PyVal) (s : String) : Bool :=
  match v with
  | .vstr t => t == s
  | _ => false

/-- `d.get(k, default)` on a string-keyed dict. -/
def pyGetD (es : PyDict) (k : String) (default : PyVal) : PyVal :=
  match es.find? (fun e => e.1 == k) with
  | some e => e.2
  | none => default

/-- `k in d` on a string-keyed dict. -/
def pyHasKey (es : PyDict) (k : String) : Bool :=
  es.any (fun e => e.1 == k)

/-- Set `d[k] = v`: overwrite in place if the key exists, else append
(Python dicts keep insertion order). -/
def pySetKey (es : PyDict) (k : String) (v : PyVal) : PyDict :=
  if es.any (fun e => e.1 == k) then
    es.map (fun e => if e.1 == k then (k, v) else e)
  else
    es ++ [(k, v)]

/-- `d.update(new)`: set every key of `new` in order. -/
def pyDictUpdate (es new : PyDict) : PyDict :=
  new.foldl (fun acc e => pySetKey acc e.1 e.2) es

mutual

/-- Python `repr(v)` (used for elements inside container `str`s).  String
escaping inside `repr` is not modelled beyond quoting. -/
def pyRepr : PyVal → String
  | .vnone => "None"
  | .vbool true => "True"
  | .vbool false => "False"
  | .vint n => toString n
  | .vstr s => "\x27" ++ s ++ "\x27"
  | .vlist xs => "[" ++ pyReprList xs ++ "]"
  | .vdict es => "\x7b" ++ pyReprEntries es ++ "\x7d"

/-- Comma-separated `repr`s of list elements. -/
def pyReprList : List PyVal → String
  | [] => ""
  | [x] => pyRepr x
  | x :: y :: rest => pyRepr x ++ ", " ++ pyReprList (y :: rest)

/-- Comma-separated `repr`s of dict entries. -/
def pyReprEntries : List (String × PyVal) → String
  | [] => ""
  | [e] => "\x27" ++ e.1 ++ "\x27: " ++ pyRepr e.2
  | e :: f :: rest => "\x27" ++ e.1 ++ "\x27: " ++ pyRepr e.2 ++ ", " ++ pyReprEntries (f :: rest)

end

/-- Python `str(v)`. -/
def pyStr : PyVal → String
  | .vstr s => s
  | v => pyRepr v

mutual

/-- `json.dumps(v)` (string escaping not modelled beyond quoting). -/
def jsonDumps : PyVal → String
  | .vnone => "null"
  | .vbool true => "true"
  | .vbool false => "false"
  | .vint n => toString n
  | .vstr s => "\x22" ++ s ++ "\x22"
  | .vlist xs => "[" ++ jsonDumpsList xs ++ "]"
  | .vdict es => "\x7b" ++ jsonDumpsEntries es ++ "\x7d"

/-- Comma-separated JSON list elements. -/
def jsonDumpsList : List PyVal → String
  | [] => ""
  | [x] => jsonDumps x
  | x :: y :: rest => jsonDumps x ++ ", " ++ jsonDumpsList (y :: rest)

/-- Comma-separated JSON dict entries. -/
def jsonDumpsEntries : List (String × PyVal) → String
  | [] => ""
  | [e] => "\x22" ++ e.1 ++ "\x22: " ++ jsonDumps e.2
  | e :: f :: rest => "\x22" ++ e.1 ++ "\x22: " ++ jsonDumps e.2 ++ ", " ++ jsonDumpsEntries (f :: rest)

end

/-- Split a character list around the first occurrence of the (nonempty)
pattern: returns `(before, after)` with
`input = before ++ pattern ++ after`.  This is the search step of
`re.search` for a literal pattern, and of Python's `in` operator. -/
def splitFirst (pat : List Char) : List Char → Option (List Char × List Char)
  | [] => if pat.isEmpty then some ([], []) else none
  | c :: rest =>
    if pat.isPrefixOf (c :: rest) then
      some ([], (c :: rest).drop pat.length)
    else
      match splitFirst pat rest with
      | some (pre, post) => some (c :: pre, post)
      | none => none

/-- Python `pat in s` (substring containment). -/
def strContains (s pat : String) : Bool :=
  (splitFirst pat.data s.data).isSome

/-- Python whitespace for `str.strip()`. -/
def pyIsSpace (c : Char) : Bool :=
  c == ' ' || c == '\t' || c == '\n' || c == '\r' || c == '\x0b' || c == '\x0c'

/-- `str.strip()` on character lists. -/
def stripChars (cs : List Char) : List Char :=
  ((cs.dropWhile pyIsSpace).reverse.dropWhile pyIsSpace).reverse

/-- `str.strip()`. -/
def pyStrip (s : String) : String :=
  String.mk (stripChars s.data)

/-- `str.lower()` (ASCII case folding; identical to CPython on the ASCII
and Hangul text appearing in this code base). -/
def pyLower (s : String) : String :=
  String.mk (s.data.map Char.toLower)

/-- `str.upper()` (ASCII case folding). -/
def pyUpper (s : String) : String :=
  String.mk (s.data.map Char.toUpper)

/-- Python `str.isdigit()` (restricted to ASCII digits, the only digits
exercised by this code base). -/
def pyIsDigitStr (s : String) : Bool :=
  !s.isEmpty && s.data.all Char.isDigit

/-- Python `int(s)` for an all-digit string. -/
def pyParseNat (s : String) : Nat :=
  s.data.foldl (fun a c => a * 10 + (c.toNat - 48)) 0

section ToolRegistry

/-!
`prism_core/core/tools/registry.py` — `ToolRegistry`.  The registry's
`_tools` dict maps names to tool objects; here the stored objects are
dynamic-tool descriptors (`DynamicToolM`), the only kind the verified
claims exercise.
-/

/-- A `DynamicTool` instance (`dynamic_tool.py`): the descriptor data held
by a registered dynamic tool. -/
structure DynamicToolM where
  name : String
  description : String
  parametersSchema : PyDict
  toolType : String
  config : PyDict

/-- The registry's `_tools` mapping (insertion-ordered dict). -/
abbrev ToolRegistryM := List (String × DynamicToolM)

/-- `ToolRegistry.register_tool`: raises `ValueError` (here: `.error`) on a
duplicate name, otherwise stores the tool under its name.  The map is
untouched when the duplicate check fires (the `raise` precedes the
assignment). -/
def registerTool (reg : ToolRegistryM) (tool : DynamicToolM) : Except String ToolRegistryM :=
  if reg.any (fun e => e.1 == tool.name) then
    .error ("Tool with name \x27" ++ tool.name ++ "\x27 is already registered")
  else
    .ok (reg ++ [(tool.name, tool)])

/-- `ToolRegistry.get_tool`: `self._tools.get(name)`. -/
def getTool (reg : ToolRegistryM) (name : String) : Option DynamicToolM :=
  (reg.find? (fun e => e.1 == name)).map (fun e => e.2)

/-- `ToolRegistry.delete_tool`. -/
def deleteTool (reg : ToolRegistryM) (name : String) : ToolRegistryM × Bool :=
  if reg.any (fun e => e.1 == name) then
    (reg.filter (fun e => !(e.1 == name)), true)
  else
    (reg, false)

/-- A `ToolRegistrationRequest` (`tools/schemas.py`). -/
structure ToolRegistrationRequestM where
  name : String
  description : String
  parametersSchema : PyDict
  toolType : String

/-- The `valid_types` list of `ToolRegistry.register_dynamic_tool`. -/
def validToolTypes : List String := ["api", "calculation", "function", "database"]

/-- `ToolRegistry.register_dynamic_tool`: duplicate-name check, then
tool-type validation against `valid_types`, then creation and storage of a
`DynamicTool`. -/
def registerDynamicTool (reg : ToolRegistryM) (req : ToolRegistrationRequestM)
    (config : PyDict) : Except String (ToolRegistryM × DynamicToolM) :=
  if reg.any (fun e => e.1 == req.name) then
    .error ("Tool with name \x27" ++ req.name ++ "\x27 is already registered")
  else if !(validToolTypes.contains req.toolType) then
    .error ("Invalid tool type \x27" ++ req.toolType ++ "\x27. Must be one of: " ++
      toString validToolTypes)
  else
    let tool : DynamicToolM :=
      { name := req.name, description := req.description,
        parametersSchema := req.parametersSchema, toolType := req.toolType,
        config := config }
    .ok (reg ++ [(req.name, tool)], tool)

end ToolRegistry

section DynamicTool

/-!
`prism_core/core/tools/base.py` (`validate_parameters`) and
`prism_core/core/tools/dynamic_tool.py` (`DynamicTool.execute` and its
kind handlers).  HTTP (`requests.request` + `raise_for_status` + body
parsing), `eval` of the filtered arithmetic expression and `exec` of
user-supplied function code are external-effect oracles.
-/

/-- `ToolResponse` (`tools/schemas.py`): `success`, `result` (default
`None`), `error_message` (default `None`).  `execution_time_ms` is
omitted (wall clock). -/
structure ToolResponseM where
  success : Bool
  result : PyVal
  errorMessage : Option String

/-- `BaseTool.validate_parameters`: every name in
`parameters_schema.get("required", [])` must be a key of `parameters`.
Iterating a non-iterable `required` value raises `TypeError` (error
text approximates CPython's). -/
def validateParameters (schema : PyDict) (params : PyDict) : Except String Bool :=
  match pyGetD schema "required" (.vlist []) with
  | .vlist items => .ok (items.all (fun it => params.any (fun e => pyEqStr it e.1)))
  | .vstr s => .ok (s.data.all (fun c => params.any (fun e => e.1 == String.mk [c])))
  | .vdict es => .ok (es.all (fun kv => params.any (fun e => e.1 == kv.1)))
  | _ => .error "TypeError: argument is not iterable"

/-- Outcome of the HTTP call in `_execute_api_call`: the `requests`
library either raises (network error or, after `raise_for_status`, a
non-2xx status) or yields a status code, a parsed body (JSON value or
raw text) and response headers. -/
structure ApiCallResult where
  statusCode : Int
  data : PyVal
  headers : PyDict

/-- Oracle for `requests.request(method, url, headers, data, timeout)`
followed by `raise_for_status()` and JSON-or-text body parsing. -/
abbrev HttpOracle := String → String → PyVal → PyVal → PyVal → Except String ApiCallResult

/-- `DynamicTool._execute_api_call`: resolve the URL from the parameters
or the config's `base_url`, require it nonempty, merge config headers
under call headers, perform the request, and shape the result dict. -/
def executeApiCall (httpO : HttpOracle) (config params : PyDict) : Except String PyVal := do
  let urlP := pyGetD params "url" .vnone
  let url := if pyTruthy urlP then urlP else pyGetD config "base_url" (.vstr "")
  let methodP := pyGetD params "method" (.vstr "GET")
  let method ←
    match methodP with
    | .vstr m => Except.ok (pyUpper m)
    | _ => Except.error "AttributeError: object has no attribute upper"
  let headers := pyGetD params "headers" (.vdict [])
  let data := pyGetD params "data" (.vdict [])
  if !(pyTruthy url) then
    Except.error "URL is required for API calls"
  else
    let defaultHeaders := pyGetD config "headers" (.vdict [])
    let mergedHeaders ←
      match defaultHeaders, headers with
      | .vdict dh, .vdict h => Except.ok (PyVal.vdict (pyDictUpdate dh h))
      | _, _ => Except.error "TypeError: argument after ** must be a mapping"
    let urlStr ←
      match url with
      | .vstr u => Except.ok u
      | _ => Except.error "InvalidURL"
    match httpO method urlStr mergedHeaders data (pyGetD config "timeout" (.vint 30)) with
    | .ok res =>
      Except.ok (.vdict [("status_code", .vint res.statusCode), ("data", res.data),
        ("headers", .vdict res.headers)])
    | .error e => Except.error e

/-- The `allowed_chars` set of `_execute_calculation`:
digits, `+-*/.()`, space, ASCII letters and underscore. -/
def calcAllowedChar (c : Char) : Bool :=
  c.isDigit || c.isAlpha || c == '_' || c == '+' || c == '-' || c == '*' ||
    c == '/' || c == '.' || c == '(' || c == ')' || c == ' '

/-- The `forbidden_keywords` list of `_execute_calculation`, in source
order. -/
def calcForbiddenKeywords : List String :=
  ["import", "exec", "eval", "open", "file", "__"]

/-- Oracle for `eval(expression, safe_namespace)` in
`_execute_calculation`; the namespace's caller-supplied variables are the
second argument. -/
abbrev CalcEvalOracle := String → PyDict → Except String PyVal

/-- `DynamicTool._execute_calculation`: require a truthy expression,
reject characters outside `allowed_chars`, reject the first forbidden
keyword occurring as a substring, require the variables to be a mapping,
then evaluate and shape the result dict; evaluation errors become
`ValueError("Calculation error: ...")`. -/
def executeCalculation (calcO : CalcEvalOracle) (params : PyDict) : Except String PyVal :=
  if !(pyTruthy (pyGetD params "expression" .vnone)) then
    .error "Expression is required for calculations"
  else
    match pyGetD params "expression" .vnone with
    | .vstr exprS =>
      if !(exprS.data.all calcAllowedChar) then
        .error "Expression contains forbidden characters"
      else
        match calcForbiddenKeywords.find? (fun kw => strContains exprS kw) with
        | some kw => .error ("Expression contains forbidden keyword: " ++ kw)
        | none =>
          match pyGetD params "variables" (.vdict []) with
          | .vdict varMap =>
            match calcO exprS varMap with
            | .ok v =>
              .ok (.vdict [("expression", .vstr exprS), ("result", v),
                ("variables_used", .vdict varMap)])
            | .error e => .error ("Calculation error: " ++ e)
          | _ => .error "TypeError: argument after ** must be a mapping"
    | .vint _ => .error "TypeError: object is not iterable"
    | .vbool _ => .error "TypeError: object is not iterable"
    | _ => .error "Expression contains forbidden characters"

/-- The `forbidden_keywords` list of `_execute_user_function`, in source
order. -/
def functionForbiddenKeywords : List String :=
  ["exec", "eval", "open", "file", "input", "raw_input",
   "__import__", "__builtins__", "__globals__", "__locals__",
   "compile", "globals", "locals", "vars", "dir", "getattr", "setattr",
   "delattr", "hasattr", "callable", "isinstance", "issubclass",
   "subprocess", "os", "sys", "socket", "urllib", "requests"]

/-- Oracle for `exec(function_code, safe_globals, local_namespace)`
followed by locating and calling the `main` (or first) callable: yields
the function's return value or the raised error text (including the
"No callable function found in the provided code" `ValueError`, which the
source raises inside its own `try`). -/
abbrev ExecOracle := String → PyDict → Except String PyVal

/-- `DynamicTool._execute_user_function`: require nonempty code, build the
namespace with the caller's `function_params` (a non-mapping raises), run
the substring blacklist, then `exec` + call; errors in that final block
re-raise as `ValueError("Function execution error: ...")`. -/
def executeUserFunction (execO : ExecOracle) (config params : PyDict) :
    Except String PyVal := do
  let functionCodeP := pyGetD config "function_code" (.vstr "")
  if !(pyTruthy functionCodeP) then
    Except.error "No function code provided in tool configuration"
  else
    let funcParamsP := pyGetD params "function_params" (.vdict [])
    let funcParams ←
      match funcParamsP with
      | .vdict fs => Except.ok fs
      | _ => Except.error "TypeError: argument after ** must be a mapping"
    let code ←
      match functionCodeP with
      | .vstr s => Except.ok s
      | _ => Except.error "TypeError: argument is not iterable"
    match functionForbiddenKeywords.find? (fun kw => strContains code kw) with
    | some kw =>
      Except.error ("Forbidden keyword \x27" ++ kw ++ "\x27 found in function code")
    | none =>
      match execO code funcParams with
      | .ok v =>
        Except.ok (.vdict [("function_executed", .vbool true), ("result", v),
          ("function_params", .vdict funcParams)])
      | .error e => Except.error ("Function execution error: " ++ e)

/-- `DynamicTool._execute_custom`: user-function passthrough when the
config carries `function_code` and the action is `execute_function`, then
the built-in `echo` / `transform` / default actions. -/
def executeCustom (execO : ExecOracle) (config params : PyDict) : Except String PyVal := do
  let action := pyGetD params "action" (.vstr "default")
  if pyHasKey config "function_code" && pyEqStr action "execute_function" then
    executeUserFunction execO config params
  else if pyEqStr action "echo" then
    Except.ok (.vdict [("message", pyGetD params "message" (.vstr "Hello from custom tool!"))])
  else if pyEqStr action "transform" then
    let dataP := pyGetD params "data" (.vdict [])
    match dataP with
    | .vdict data =>
      let transformed := data.map (fun e =>
        match e.2 with
        | .vstr s => (e.1, PyVal.vstr (pyUpper s))
        | v => (e.1, v))
      Except.ok (.vdict [("original", .vdict data), ("transformed", .vdict transformed)])
    | _ => Except.error "AttributeError: object has no attribute items"
  else
    Except.ok (.vdict [("action", action), ("parameters", .vdict params),
      ("message", .vstr "Custom tool executed successfully")])

/-- Internal flow of `DynamicTool.execute`: an early `return` of a
`ToolResponse` (invalid parameters / unknown tool type), a handler result
to be wrapped as a success, or a raised exception. -/
inductive ExecFlow where
  | early (r : ToolResponseM)
  | result (v : PyVal)

/-- The body of `DynamicTool.execute` inside its `try`: validate the
parameters, dispatch on `tool_type` (`api` / `calculation` / `custom`),
or return the unknown-tool-type failure. -/
def dynamicToolExecuteInner (httpO : HttpOracle) (calcO : CalcEvalOracle)
    (execO : ExecOracle) (tool : DynamicToolM) (params : PyDict) :
    Except String ExecFlow := do
  let valid ← validateParameters tool.parametersSchema params
  if !valid then
    Except.ok (.early
      { success := false
        result := .vnone
        errorMessage := some "Invalid parameters provided" })
  else if tool.toolType == "api" then
    (executeApiCall httpO tool.config params).map .result
  else if tool.toolType == "calculation" then
    (executeCalculation calcO params).map .result
  else if tool.toolType == "custom" then
    (executeCustom execO tool.config params).map .result
  else
    Except.ok (.early
      { success := false
        result := .vnone
        errorMessage := some ("Unknown tool type: " ++ tool.toolType) })

/-- `DynamicTool.execute`: the whole body runs inside `try`; any raised
exception is captured as a failed `ToolResponse` with `str(e)` as the
error message, and a handler value is wrapped as a success. -/
def DynamicToolM.execute (httpO : HttpOracle) (calcO : CalcEvalOracle)
    (execO : ExecOracle) (tool : DynamicToolM) (params : PyDict) : ToolResponseM :=
  match dynamicToolExecuteInner httpO calcO execO tool params with
  | .ok (.early r) => r
  | .ok (.result v) => { success := true, result := v, errorMessage := none }
  | .error e => { success := false, result := .vnone, errorMessage := some e }

end DynamicTool

section WorkflowManager

/-!
`prism_core/core/agents/workflow_manager.py` — `WorkflowManager`.  Steps
are Python dicts; the tool-call and agent-call handlers (which reach out
to the tool registry, HTTP and the model backend) are oracles, while the
condition handler, the step dispatcher, the template resolvers and the
execution loop are embedded from the source.
-/

/-- The `\x7b` character (spelled via its code so that braces never occur
textually in this file). -/
def lbrace : Char := Char.ofNat 123

/-- The `\x7d` character. -/
def rbrace : Char := Char.ofNat 125

/-- `str.split(sep)` for a single-character separator (as used by
`path.split(".")` in `get_nested_value`): splitting the empty string
yields one empty segment. -/
def splitOnChar (sep : Char) : List Char → List (List Char)
  | [] => [[]]
  | c :: rest =>
    let r := splitOnChar sep rest
    if c == sep then [] :: r
    else
      match r with
      | h :: t => (c :: h) :: t
      | [] => [[c]]

/-- `get_nested_value(obj, path)` (inner helper of `_render_template`),
applied to an already-split key list: walk dict keys and digit-indexed
list elements; a missing dict key, a non-digit key against a list, or a
scalar mid-path yields Python `None` (`.ok .vnone`); a digit index out of
a list's range raises `IndexError` (`.error`). -/
def getNestedValue : PyVal → List String → Except String PyVal
  | cur, [] => .ok cur
  | cur, k :: ks =>
    match cur with
    | .vdict es =>
      if pyHasKey es k then getNestedValue (pyGetD es k .vnone) ks else .ok .vnone
    | .vlist xs =>
      if pyIsDigitStr k then
        if h : pyParseNat k < xs.length then
          getNestedValue (xs.get ⟨pyParseNat k, h⟩) ks
        else
          .error "list index out of range"
      else .ok .vnone
    | _ => .ok .vnone

/-- Matching step for the regex `\x7b\x7b([^\x7d]+)\x7d\x7d` once an
opening double brace has been consumed: a nonempty run of
non-`\x7d` characters must be followed by exactly two `\x7d`.
Returns the captured variable text and the remaining input. -/
def extractVar (cs : List Char) : Option (List Char × List Char) :=
  match cs.dropWhile (fun c => c != rbrace) with
  | r1 :: r2 :: rest =>
    if !(cs.takeWhile (fun c => c != rbrace)).isEmpty && r1 == rbrace && r2 == rbrace then
      some (cs.takeWhile (fun c => c != rbrace), rest)
    else none
  | _ => none

theorem extractVar_rest_lt (cs v rest : List Char) (h : extractVar cs = some (v, rest)) :
    rest.length + 2 ≤ cs.length := by
  unfold extractVar at h
  rcases hd : cs.dropWhile (fun c => c != rbrace) with _ | ⟨r1, tail⟩ <;> rw [hd] at h
  · exact absurd h (by simp)
  · rcases tail with _ | ⟨r2, rest2⟩
    · exact absurd h (by simp)
    · dsimp only at h
      split at h
      · have hlen := congrArg List.length (List.takeWhile_append_dropWhile
          (p := fun c => c != rbrace) (l := cs))
        rw [hd] at hlen
        simp only [List.length_append, List.length_cons] at hlen
        injection h with h1
        cases h1
        omega
      · exact absurd h (by simp)

/-- `replace_match` of `_render_template`: strip the captured path, look
it up with `get_nested_value` on the dotted path; `None` (unresolved)
keeps the whole placeholder verbatim, any other value is replaced by its
`str`. -/
def renderReplacement (ctx : PyDict) (varCs : List Char) : Except String (List Char) :=
  match getNestedValue (.vdict ctx) ((splitOnChar '.' (stripChars varCs)).map String.mk) with
  | .error e => .error e
  | .ok .vnone => .ok (lbrace :: lbrace :: (varCs ++ [rbrace, rbrace]))
  | .ok v => .ok (pyStr v).data

/-- The scan of `re.sub(r"\x7b\x7b([^\x7d]+)\x7d\x7d", replace_match,
template)`: at each position, a placeholder match is replaced (and
scanning resumes after it), otherwise one character is emitted.  The
`Nat` argument is recursion fuel; every recursive call shortens the
character list, so fuel equal to the input length (as supplied by
`renderChars`) never runs out. -/
def renderCharsF (ctx : PyDict) : Nat → List Char → Except String (List Char)
  | _, [] => .ok []
  | 0, _ :: _ => .ok []
  | fuel + 1, c :: rest =>
    if c == lbrace then
      match rest with
      | c2 :: rest2 =>
        if c2 == lbrace then
          match extractVar rest2 with
          | some (varCs, rest3) => do
            let rep ← renderReplacement ctx varCs
            let tail ← renderCharsF ctx fuel rest3
            Except.ok (rep ++ tail)
          | none => do
            let tail ← renderCharsF ctx fuel (c2 :: rest2)
            Except.ok (c :: tail)
        else do
          let tail ← renderCharsF ctx fuel (c2 :: rest2)
          Except.ok (c :: tail)
      | [] => Except.ok [c]
    else do
      let tail ← renderCharsF ctx fuel rest
      Except.ok (c :: tail)

/-- The full placeholder scan of `_render_template`. -/
def renderChars (ctx : PyDict) (cs : List Char) : Except String (List Char) :=
  renderCharsF ctx cs.length cs

/-- `WorkflowManager._render_template` (the `template is None` guard is
outside this embedding: every call site passes a string default). -/
def renderTemplate (template : String) (ctx : PyDict) : Except String String :=
  (renderChars ctx template.data).map String.mk

/-- `WorkflowManager._prepare_parameters`: only a string value that is
exactly `\x7b\x7b...\x7d\x7d` end to end is substituted, by a flat
`context.get` of the stripped inner text (the value itself is the
default); every other value passes through unchanged. -/
def prepareParameters (params : PyDict) (ctx : PyDict) : PyDict :=
  params.map (fun e =>
    match e.2 with
    | .vstr s =>
      if List.isPrefixOf [lbrace, lbrace] s.data && List.isSuffixOf [rbrace, rbrace] s.data then
        let varName := pyStrip (String.mk ((s.data.drop 2).take ((s.data.drop 2).length - 2)))
        (e.1, pyGetD ctx varName (.vstr s))
      else (e.1, .vstr s)
    | v => (e.1, v))

/-- A step result dict (`step_result` in `_execute_step`): `step_name`
and `step_type` carry whatever values the step dict holds, `output` /
`error` are optional keys.  Timestamps omitted (wall clock). -/
structure StepResultM where
  stepName : PyVal
  stepType : PyVal
  success : Bool
  output : Option PyVal
  error : Option String

/-- The dict a step-type handler returns, merged into `step_result` via
`dict.update`: only present keys overwrite. -/
structure StepUpd where
  success : Option Bool
  output : Option PyVal
  error : Option String

/-- Oracle type for `_execute_tool_step` / `_execute_agent_step` (they
perform registry lookups, HTTP and model calls); an `.error` models an
exception raised by the handler, caught by `_execute_step`'s `try`. -/
abbrev StepHandlerOracle := PyDict → PyDict → Except String StepUpd

/-- `WorkflowManager._execute_condition_step`: evaluate the `condition`
expression (oracle for `eval(condition, namespace)` with the context
bound) — any evaluation result, truthy or falsy, yields `success=True`
with the value under output key `condition_result`; an evaluation error
yields `success=False` with a `Condition evaluation failed:` message. -/
def executeConditionStep (evalO : String → PyDict → Except String PyVal)
    (step : PyDict) (ctx : PyDict) : StepUpd :=
  match pyGetD step "condition" (.vstr "") with
  | .vstr cond =>
    match evalO cond ctx with
    | .ok v =>
      { success := some true
        output := some (.vdict [("condition_result", v)])
        error := none }
    | .error e =>
      { success := some false
        output := none
        error := some ("Condition evaluation failed: " ++ e) }
  | _ =>
    { success := some false
      output := none
      error := some "Condition evaluation failed: eval() arg 1 must be a string, bytes or code object" }

/-- `WorkflowManager._execute_step`: a `None` step short-circuits;
otherwise seed the result with name/type and `success=False`, dispatch on
`step.get("type")`, merge the handler's dict, and capture any raised
exception as the step's error. -/
def executeStep (toolH agentH : StepHandlerOracle)
    (evalO : String → PyDict → Except String PyVal) :
    Option PyDict → PyDict → StepResultM
  | none, _ =>
    { stepName := .vstr "unknown", stepType := .vstr "unknown", success := false,
      output := none, error := some "Step is None" }
  | some step, ctx =>
    let base : StepResultM :=
      { stepName := pyGetD step "name" (.vstr "unknown")
        stepType := pyGetD step "type" (.vstr "unknown")
        success := false
        output := none
        error := none }
    let ty := pyGetD step "type" .vnone
    let upd : Except String StepUpd :=
      if pyEqStr ty "tool_call" then toolH step ctx
      else if pyEqStr ty "agent_call" then agentH step ctx
      else if pyEqStr ty "condition" then .ok (executeConditionStep evalO step ctx)
      else .ok { success := none, output := none, error := some ("Unknown step type: " ++ pyStr ty) }
    match upd with
    | .ok u =>
      { base with
          success := u.success.getD base.success
          output := u.output
          error := u.error }
    | .error e => { base with error := some e }

/-- Outcome of the step loop of `execute_workflow`: all steps done, a
fail-fast stop on the first `success=False` step, or a raised `KeyError`
when a failing step result lacks the `error` key (caught by the
surrounding `try`). -/
inductive WfLoopResult where
  | finished (results : List StepResultM) (ctx : PyDict)
  | failedStep (results : List StepResultM) (ctx : PyDict) (err : String)
  | raisedKeyError (results : List StepResultM) (ctx : PyDict) (exc : String)

/-- The `for step in steps` loop of `execute_workflow`: run each step,
append its result; on failure record the error and stop (fail-fast); on
success merge a dict-shaped output into the shared context and
continue. -/
def wfLoop (stepRun : Option PyDict → PyDict → StepResultM) :
    List (Option PyDict) → PyDict → List StepResultM → WfLoopResult
  | [], ctx, acc => .finished acc ctx
  | s :: rest, ctx, acc =>
    let r := stepRun s ctx
    let acc2 := acc ++ [r]
    if r.success then
      let ctx2 :=
        match r.output.getD (.vdict []) with
        | .vdict es => pyDictUpdate ctx es
        | _ => ctx
      wfLoop stepRun rest ctx2 acc2
    else
      match r.error with
      | some e => .failedStep acc2 ctx e
      | none => .raisedKeyError acc2 ctx "\x27error\x27"

/-- A stored workflow (`self.workflows[name]`): its step list and status
(`created_at` omitted — wall clock). -/
structure WorkflowEntryM where
  steps : Option (List (Option PyDict))
  status : String

/-- The `execution_result` dict of `execute_workflow` (`start_time` /
`end_time` omitted — wall clock).  `context` is the shared context
object, which the loop mutates in place; the record therefore shows the
merged context. -/
structure ExecutionRecordM where
  executionId : String
  workflowName : String
  status : String
  steps : List StepResultM
  context : PyDict
  error : Option String

/-- The value returned by `execute_workflow`: the two early error dicts
(`Workflow not found` / `Workflow steps not defined`) or a full execution
record. -/
inductive WorkflowCallResult where
  | notFound
  | stepsNotDefined
  | record (r : ExecutionRecordM)

/-- `WorkflowManager` state: workflow map and the in-memory
`execution_history` list. -/
structure WorkflowManagerM where
  workflows : List (String × WorkflowEntryM)
  executionHistory : List ExecutionRecordM

/-- Set a key of a string-keyed association map (Python dict
assignment). -/
def setAssoc {α : Type} (xs : List (String × α)) (k : String) (v : α) : List (String × α) :=
  if xs.any (fun e => e.1 == k) then
    xs.map (fun e => if e.1 == k then (k, v) else e)
  else
    xs ++ [(k, v)]

/-- `WorkflowManager.define_workflow`: store the steps with status
`defined`. -/
def defineWorkflow (mgr : WorkflowManagerM) (name : String)
    (steps : List (Option PyDict)) : WorkflowManagerM × Bool :=
  ({ mgr with workflows := setAssoc mgr.workflows name { steps := some steps, status := "defined" } },
   true)

/-- `WorkflowManager.execute_workflow`: unknown name and missing steps
short-circuit; otherwise the workflow is marked `running`, the step loop
runs, the status becomes `completed` (all steps) or `failed` (fail-fast
stop or raised exception), and the record is appended to
`execution_history`.  `stepRun` abstracts `self._execute_step`;
`executionId` the fresh `uuid4`. -/
def executeWorkflow (mgr : WorkflowManagerM)
    (stepRun : Option PyDict → PyDict → StepResultM) (workflowName : String)
    (ctx : PyDict) (executionId : String) : WorkflowCallResult × WorkflowManagerM :=
  match mgr.workflows.find? (fun e => e.1 == workflowName) with
  | none => (.notFound, mgr)
  | some entry =>
    let mgr1 : WorkflowManagerM :=
      { mgr with workflows := mgr.workflows.map (fun e =>
          if e.1 == workflowName then (e.1, { e.2 with status := "running" }) else e) }
    match entry.2.steps with
    | none => (.stepsNotDefined, mgr1)
    | some steps =>
      let outcome := wfLoop stepRun steps ctx []
      let rec0 : ExecutionRecordM :=
        match outcome with
        | .finished rs c =>
          { executionId := executionId, workflowName := workflowName,
            status := "completed", steps := rs, context := c, error := none }
        | .failedStep rs c e =>
          { executionId := executionId, workflowName := workflowName,
            status := "failed", steps := rs, context := c, error := some e }
        | .raisedKeyError rs c e =>
          { executionId := executionId, workflowName := workflowName,
            status := "failed", steps := rs, context := c, error := some e }
      (.record rec0, { mgr1 with executionHistory := mgr1.executionHistory ++ [rec0] })

/-- `WorkflowManager.get_execution_history`: filter by workflow name when
given. -/
def getExecutionHistory (mgr : WorkflowManagerM) (name : Option String) :
    List ExecutionRecordM :=
  match name with
  | some n => mgr.executionHistory.filter (fun e => e.workflowName == n)
  | none => mgr.executionHistory

end WorkflowManager

section PrismLLMServiceGenerate

/-!
`prism_core/core/llm/prism_llm_service.py` — `PrismLLMService.generate`
and `_generate_fallback_response`.  The chat-completion backend is an
oracle from the resolved messages value to either the assistant text or a
raised error; `random.choice` / `random.randint` / `time.strftime` are
the `rchoice` / `rint` / `timestamp` parameters.
-/

/-- `LLMGenerationRequest` (`llm/schemas.py`).  `max_tokens`,
`temperature` and `stop` are passed through to the backend unchanged and
omitted here. -/
structure LLMGenerationRequestM where
  prompt : Option String
  messages : Option PyVal
  extraBody : Option PyDict

/-- The `pressure` fallback template list (`self.response_templates`). -/
def pressureTemplates : List String :=
  ["압력 이상이 감지되었습니다. 즉시 다음 조치를 수행하세요:\n1. 압력 센서 점검\n2. 밸브 상태 확인\n3. 배관 누출 검사\n4. 안전 프로토콜 실행",
   "압력 상승 원인을 분석한 결과, 밸브 오작동이 의심됩니다. 정비팀에 즉시 연락하여 V-001 밸브를 점검하시기 바랍니다.",
   "압력 데이터를 종합 분석한 결과, 정상 범위(1.0-3.5 bar)를 초과했습니다. 긴급 대응이 필요합니다."]

/-- The `temperature` fallback template list. -/
def temperatureTemplates : List String :=
  ["온도 센서 이상이 확인되었습니다. 다음 점검 절차를 따르세요:\n1. 센서 케이블 연결 상태 확인\n2. 캘리브레이션 상태 점검\n3. 주변 환경 온도 측정",
   "T-002 센서의 패턴 분석 결과, 주기적인 스파이크가 발견됩니다. 전기적 간섭이나 기계적 진동을 확인해보세요.",
   "온도 센서 교체를 권장합니다. 현재 센서의 정확도가 허용 범위를 벗어났습니다."]

/-- The `general` fallback template list. -/
def generalTemplates : List String :=
  ["시스템 전반적인 상태 점검을 완료했습니다. 대부분의 파라미터가 정상 범위 내에 있으나, 정기 유지보수가 필요한 부분이 있습니다.",
   "야간 교대 준비를 위한 시스템 점검 결과를 안내드립니다. 모든 안전 시스템이 정상 작동 중이며, 특별한 주의사항은 없습니다.",
   "전체 시스템 상태가 양호합니다. 다음 점검 일정에 맞춰 예방 정비를 실시하시기 바랍니다."]

/-- The keyword dispatch of `_generate_fallback_response` over the
lower-cased prompt. -/
def selectTemplates (promptLower : String) : List String :=
  if strContains promptLower "압력" || strContains promptLower "pressure" then
    pressureTemplates
  else if strContains promptLower "온도" || strContains promptLower "temperature" then
    temperatureTemplates
  else
    generalTemplates

/-- `random.choice(l)` with the generator's draw supplied as an index. -/
def pyChoice (r : Nat) (l : List String) : String :=
  l.getD (r % l.length) ""

/-- `PrismLLMService._generate_fallback_response`: pick a template list
by keyword match on the lower-cased prompt, draw one template, and wrap
it in the fixed fallback-mode report (which embeds the draw-dependent
template, the `random.randint(85, 98)` confidence and the
`time.strftime` timestamp). -/
def fallbackResponse (rchoice rint : Nat) (timestamp modelName : String)
    (req : LLMGenerationRequestM) : String :=
  let promptLower := pyLower (req.prompt.getD "")
  let base := pyChoice rchoice (selectTemplates promptLower)
  "## PRISM 에이전트 시스템 응답 (폴백 모드)\n\n" ++ base ++
    "\n\n### 권장 조치사항:\n- 즉시 해당 시스템 담당자에게 보고\n- 안전 프로토콜 준수\n- 조치 결과를 시스템에 기록\n\n### 추가 정보:\n- 분석 시간: " ++
    timestamp ++ "\n- 모델: " ++ modelName ++ " (폴백 모드)\n- 신뢰도: " ++
    toString rint ++ "%\n\n---\n*이 응답은 PRISM-Core 에이전트 시스템 폴백 모드에 의해 생성되었습니다.*"

/-- `PrismLLMService.generate`: resolve the chat messages from
`request.messages` or `request.extra_body["messages"]`; a falsy result
raises `ValueError` inside the same `try`, so it, like any backend
error, lands in the fallback path.  On success the assistant content (or
`""` for `None` content) is returned. -/
def generateM (backendO : PyVal → Except String (Option String)) (rchoice rint : Nat)
    (timestamp modelName : String) (req : LLMGenerationRequestM) : String :=
  let fromExtra : PyVal :=
    match req.extraBody with
    | some eb => if !eb.isEmpty then pyGetD eb "messages" .vnone else .vnone
    | none => .vnone
  let messages : PyVal :=
    match req.messages with
    | some v => if pyTruthy v then v else fromExtra
    | none => fromExtra
  if !(pyTruthy messages) then
    fallbackResponse rchoice rint timestamp modelName req
  else
    match backendO messages with
    | .ok content => content.getD ""
    | .error _ => fallbackResponse rchoice rint timestamp modelName req

end PrismLLMServiceGenerate

section FunctionCallingLoop

/-!
`prism_core/core/llm/prism_llm_service.py` —
`_invoke_agent_with_function_calling`, `_invoke_agent_basic` and
`invoke_agent`.  The OpenAI chat call is an oracle from the transcript to
the assistant message (content + tool-call directives) or a raised
error; `json.loads` of tool-call arguments and tool lookup + execution
are oracles as well.

`AgentInvokeRequest` (`llm/schemas.py`) defines no `session_id` field,
yet `request.session_id` is read by both return paths of the
function-calling loop, by `_invoke_agent_basic` and by `invoke_agent`:
every such read raises `AttributeError`, which is modelled explicitly
below.
-/

/-- One `\x7bid, function:\x7bname, arguments(json-string)\x7d\x7d`
tool-call directive of the backend response. -/
structure ToolCallDirective where
  callId : String
  funcName : String
  argumentsJson : String

/-- A transcript entry: either the backend's assistant message object
(`response_message`, which has no `.get` method) or one of the dicts the
service itself appends (system / user / tool messages). -/
inductive TranscriptMsg where
  | objMsg (content : Option String) (toolCalls : List ToolCallDirective)
  | dictMsg (role : String) (content : String) (toolCallId : Option String)

/-- Mutable state of the function-calling loop: the transcript, the
`tools_used` and `tool_results` accumulators, and the number of backend
chat-completion calls made so far. -/
structure FcState where
  messages : List TranscriptMsg
  toolsUsed : List String
  toolResults : List PyVal
  backendCalls : Nat

/-- Oracle for `self.client.chat.completions.create(...)`: from the
current transcript to the assistant content and tool-call directives, or
a raised error. -/
abbrev ChatBackendOracle := List TranscriptMsg → Except String (Option String × List ToolCallDirective)

/-- Oracle for `self.tool_registry.get_tool(name)` combined with
`tool.execute(request)`: `none` models a missing tool; the returned
function models `execute`, whose `.error` is an exception raised by the
tool object (caught by the per-call `try`). -/
abbrev ToolExecOracle := String → Option (PyDict → Except String ToolResponseM)

/-- Oracle for `json.loads` of a tool call's `arguments` string;
`.error` covers both a `JSONDecodeError` and a non-object payload (which
would make the subsequent `ToolRequest` construction raise). -/
abbrev JsonLoadsOracle := String → Except String PyDict

/-- Python `f"...\x7bv\x7d"` of an `Optional[str]`. -/
def optionStrPy : Option String → String
  | some s => s
  | none => "None"

/-- Processing of one tool-call directive (loop body lines 497-554):
parse the arguments (a raised parse error aborts the iteration), look up
the tool; a found tool is executed and recorded in `tools_used` /
`tool_results` and the transcript (execution exceptions are recorded as
error results); a missing tool only appends the synthesized
`Tool '...' not found` transcript message. -/
def processToolCall (lookupTool : ToolExecOracle) (loads : JsonLoadsOracle)
    (st : FcState) (tc : ToolCallDirective) : FcState × Option String :=
  match loads tc.argumentsJson with
  | .error e => (st, some e)
  | .ok args =>
    match lookupTool tc.funcName with
    | some exec =>
      match exec args with
      | .ok tr =>
        let content :=
          if tr.success then jsonDumps tr.result
          else "Error: " ++ optionStrPy tr.errorMessage
        let record : PyVal := .vdict [("tool", .vstr tc.funcName), ("arguments", .vdict args),
          ("result", if tr.success then tr.result else .vnone),
          ("error",
            if tr.success then .vnone
            else match tr.errorMessage with | some m => .vstr m | none => .vnone),
          ("success", .vbool tr.success)]
        ({ st with
            toolsUsed := st.toolsUsed ++ [tc.funcName]
            toolResults := st.toolResults ++ [record]
            messages := st.messages ++ [.dictMsg "tool" content (some tc.callId)] }, none)
      | .error e =>
        let errorMsg := "Tool execution error: " ++ e
        let record : PyVal := .vdict [("tool", .vstr tc.funcName), ("arguments", .vdict args),
          ("result", .vnone), ("error", .vstr errorMsg), ("success", .vbool false)]
        ({ st with
            toolResults := st.toolResults ++ [record]
            messages := st.messages ++ [.dictMsg "tool" errorMsg (some tc.callId)] }, none)
    | none =>
      let errorMsg := "Tool \x27" ++ tc.funcName ++ "\x27 not found"
      ({ st with messages := st.messages ++ [.dictMsg "tool" errorMsg (some tc.callId)] }, none)

/-- The `for tool_call in response_message.tool_calls` loop; a raised
argument-parse error stops it with the state reached so far. -/
def processToolCalls (lookupTool : ToolExecOracle) (loads : JsonLoadsOracle) :
    List ToolCallDirective → FcState → FcState × Option String
  | [], st => (st, none)
  | tc :: rest, st =>
    match processToolCall lookupTool loads st tc with
    | (st2, none) => processToolCalls lookupTool loads rest st2
    | (st2, some e) => (st2, some e)

/-- How the `for iteration in range(max_iterations)` loop ends: a
response without tool calls reaches the in-loop `return` (with the shown
content), or the loop is exhausted / broken by an exception. -/
inductive FcOutcome where
  | finalized (content : Option String) (st : FcState)
  | exhausted (st : FcState)

/-- The function-calling iteration loop: each iteration makes one backend
call (a raised backend error breaks the loop), appends the assistant
message, and either reaches the in-loop `return` (no tool calls) or
processes every directive and continues; a raised argument-parse error
also breaks the loop. -/
def fcIterate (backend : ChatBackendOracle) (lookupTool : ToolExecOracle)
    (loads : JsonLoadsOracle) : Nat → FcState → FcOutcome
  | 0, st => .exhausted st
  | fuel + 1, st =>
    match backend st.messages with
    | .error _ => .exhausted { st with backendCalls := st.backendCalls + 1 }
    | .ok (content, toolCalls) =>
      let st1 : FcState :=
        { st with
            messages := st.messages ++ [.objMsg content toolCalls]
            backendCalls := st.backendCalls + 1 }
      if toolCalls.isEmpty then
        .finalized content st1
      else
        match processToolCalls lookupTool loads toolCalls st1 with
        | (st2, none) => fcIterate backend lookupTool loads fuel st2
        | (st2, some _) => .exhausted st2

/-- `str(e)` of the `AttributeError` raised by reading
`request.session_id` on an `AgentInvokeRequest`, which defines no such
field. -/
def attributeErrorSessionId : String :=
  "\x27AgentInvokeRequest\x27 object has no attribute \x27session_id\x27"

/-- `AgentResponse` (`llm/schemas.py`). -/
structure AgentResponseM where
  text : String
  toolsUsed : List String
  toolResults : List PyVal
  metadata : PyDict

/-- An `Agent` (`llm/schemas.py`): the fields the invocation path
reads. -/
structure AgentM where
  name : String
  rolePrompt : String
  tools : List String

/-- `AgentInvokeRequest` (`llm/schemas.py`): the fields the
function-calling path reads.  The schema defines no `session_id`. -/
structure AgentInvokeRequestM where
  prompt : String
  useTools : Bool
  maxToolCalls : Nat

/-- The post-loop code of `_invoke_agent_with_function_calling` (lines
580-602): compute `final_text` from the last transcript message —
`.get("content", ...)` on the assistant message object raises
`AttributeError` — and then evaluate the metadata dict of the `return`,
whose `request.session_id` entry raises `AttributeError` in every case,
so this code always raises. -/
def fcFinish (st : FcState) : Except String AgentResponseM :=
  let finalText : Except String String :=
    if st.messages.length > 2 then
      match st.messages.getLast? with
      | some (.dictMsg _ content _) => Except.ok content
      | some (.objMsg _ _) =>
        Except.error "\x27ChatCompletionMessage\x27 object has no attribute \x27get\x27"
      | none => Except.ok "Function calling process completed"
    else Except.ok "Function calling process completed"
  match finalText with
  | .error e => .error e
  | .ok _ => Except.error attributeErrorSessionId

/-- The seeded transcript of `_invoke_agent_with_function_calling`: the
agent's `role_prompt` as the system message and the request prompt as
the user message.  Note on the whole method: both the in-loop `return`
(whose metadata dict reads `request.session_id` inside the iteration
`try`, so the raise becomes a `break` into the post-loop code) and the
post-loop `return` raise `AttributeError`, so every run of this method
raises. -/
def fcInitState (agent : AgentM) (req : AgentInvokeRequestM) : FcState :=
  { messages := [.dictMsg "system" agent.rolePrompt none, .dictMsg "user" req.prompt none]
    toolsUsed := []
    toolResults := []
    backendCalls := 0 }

/-- `_invoke_agent_with_function_calling`, assembled from the seeded
transcript, the iteration loop and the post-loop return. -/
def invokeAgentFC (backend : ChatBackendOracle) (lookupTool : ToolExecOracle)
    (loads : JsonLoadsOracle) (agent : AgentM) (req : AgentInvokeRequestM) :
    Except String AgentResponseM :=
  match fcIterate backend lookupTool loads req.maxToolCalls (fcInitState agent req) with
  | .finalized _ st => fcFinish st
  | .exhausted st => fcFinish st

/-- `_invoke_agent_basic`: one backend call on the bare user prompt; the
subsequent `if request.session_id:` raises `AttributeError`, so this
method raises on every successful backend call as well. -/
def invokeAgentBasic (backend : ChatBackendOracle) (req : AgentInvokeRequestM) :
    Except String AgentResponseM :=
  match backend [.dictMsg "user" req.prompt none] with
  | .error e => .error e
  | .ok _ => .error attributeErrorSessionId

/-- The failure `AgentResponse` built by `invoke_agent`'s exception
handlers. -/
def agentCallFailureResponse (e : String) : AgentResponseM :=
  { text := "에이전트 호출 실패: " ++ e
    toolsUsed := []
    toolResults := []
    metadata := [("error", .vstr e), ("session_id", .vnone)] }

/-- `PrismLLMService.invoke_agent`: dispatch to the function-calling or
basic path; a returned response would then hit `if request.session_id:`
(another `AttributeError`); every raised error is caught and turned into
the failure `AgentResponse`, so the caller always receives a response
object. -/
def invokeAgent (backend : ChatBackendOracle) (lookupTool : ToolExecOracle)
    (loads : JsonLoadsOracle) (agent : AgentM) (req : AgentInvokeRequestM) :
    AgentResponseM :=
  let inner : Except String AgentResponseM :=
    if req.useTools && !agent.tools.isEmpty then
      invokeAgentFC backend lookupTool loads agent req
    else
      invokeAgentBasic backend req
  match inner with
  | .ok _ => agentCallFailureResponse attributeErrorSessionId
  | .error e => agentCallFailureResponse e

end FunctionCallingLoop

section ToolOrchestrator

/-!
`core/llm/tool_orchestrator.py` — `ToolOrchestrator.generate_with_tools`
(the text-marker variant) together with `execute_tool` of the
client-scoped registry in `prism_core/core/llm/tools.py` that it calls.
The model backend (`self.llm_service.generate`, which never raises) is a
function from the prompt to the output text; `json.loads` of the
captured tool-call JSON is an oracle (`none` = `JSONDecodeError`); the
HTTP invocation of a registered tool is an oracle.
-/

/-- A `Tool` of the legacy client-scoped registry (`llm/tools.py`):
name, description, input schema and HTTP endpoint data. -/
structure LegacyTool where
  name : String
  description : String
  inputSchema : PyVal
  endpointUrl : String
  endpointMethod : String

/-- The `_client_to_tools` map: client id → (tool name → tool). -/
abbrev LegacyRegistry := List (String × List (String × LegacyTool))

/-- Outcome of the HTTP invocation inside `execute_tool`:
an `httpx.HTTPError` (network failure or non-2xx after
`raise_for_status`), a JSON body, or a text body. -/
inductive HttpOutcome where
  | httpError (msg : String)
  | jsonBody (v : PyVal)
  | textBody (t : String)

/-- Oracle for the `httpx` GET/POST performed by `execute_tool`. -/
abbrev LegacyHttpOracle := LegacyTool → PyVal → HttpOutcome

/-- `ToolRegistry.execute_tool` (`llm/tools.py`): raises `ValueError`
for an unknown client/tool (the orchestrator does not catch this);
an HTTP error is returned as a `[tool_error]` string; a JSON body is
returned through `str(...)`, a text body verbatim. -/
def executeToolLegacy (reg : LegacyRegistry) (httpO : LegacyHttpOracle)
    (clientId : String) (toolName : PyVal) (arguments : PyVal) : Except String String :=
  let clientTools :=
    match reg.find? (fun e => e.1 == clientId) with
    | some e => e.2
    | none => []
  let toolFound :=
    match toolName with
    | .vstr n => (clientTools.find? (fun e => e.1 == n)).map (fun e => e.2)
    | _ => none
  match toolFound with
  | none =>
    .error ("Tool \x27" ++ pyStr toolName ++ "\x27 not found for client \x27" ++ clientId ++ "\x27.")
  | some tool =>
    match httpO tool arguments with
    | .httpError e =>
      .ok ("[tool_error] HTTP error invoking tool \x27" ++ pyStr toolName ++ "\x27: " ++ e)
    | .jsonBody v => .ok (pyStr v)
    | .textBody t => .ok t

/-- `ToolOrchestrator._build_tools_prompt`. -/
def buildToolsPrompt (tools : List LegacyTool) : String :=
  if tools.isEmpty then ""
  else
    let header :=
      "You have access to the following tools. To call a tool, output exactly a JSON object wrapped in <tool_call> tags.\nUse this format: <tool_call>\x7b\x22tool_name\x22: \x22name\x22, \x22arguments\x22: \x7b ... \x7d\x7d </tool_call>\nIf you are ready to provide the final answer, wrap it in <final> ... </final>.\nTools:"
    tools.foldl (fun acc tool =>
      acc ++ "\n- name: " ++ tool.name ++ "\n  description: " ++ tool.description ++
        "\n  json_input_schema:\n" ++ jsonDumps tool.inputSchema) header

/-- `re.search(r"<final>(.*?)</final>", out, re.S)`: the content between
the first `<final>` and the first `</final>` after it. -/
def findFinal (s : String) : Option String :=
  match splitFirst "<final>".data s.data with
  | none => none
  | some (_, rest) =>
    match splitFirst "</final>".data rest with
    | none => none
    | some (content, _) => some (String.mk content)

/-- `re.search(r"<tool_call>(\x7b.*?\x7d)</tool_call>", out, re.S)`: the
first `<tool_call>` directly followed by `\x7b`, captured lazily up to
the first `\x7d</tool_call>` after it (capture includes the braces). -/
def findToolCallJson (s : String) : Option String :=
  match splitFirst ("<tool_call>".data ++ [lbrace]) s.data with
  | none => none
  | some (_, rest) =>
    match splitFirst ([rbrace] ++ "</tool_call>".data) rest with
    | none => none
    | some (content, _) => some (String.mk (lbrace :: (content ++ [rbrace])))

/-- The `for _ in range(max_tool_calls + 1)` loop of
`generate_with_tools` plus the post-loop finalize call (the `fuel = 0`
case).  Returns the result (or the propagated `execute_tool` error)
together with the number of backend `generate` calls made. -/
def gwtLoop (gen : String → String) (loads : String → Option PyVal)
    (reg : LegacyRegistry) (httpO : LegacyHttpOracle) (clientId : String) :
    Nat → String → Nat → (Except String String) × Nat
  | 0, prompt, calls =>
    let finalPrompt := prompt ++ "\nPlease provide the final answer wrapped in <final> ... </final>."
    let out := gen finalPrompt
    (match findFinal out with
     | some content => (.ok (pyStrip content), calls + 1)
     | none => (.ok (pyStrip out), calls + 1))
  | fuel + 1, prompt, calls =>
    let out := gen prompt
    match findFinal out with
    | some content => (.ok (pyStrip content), calls + 1)
    | none =>
      match findToolCallJson out with
      | none => (.ok (pyStrip out), calls + 1)
      | some callJson =>
        match loads callJson with
        | none => (.ok (pyStrip out), calls + 1)
        | some (PyVal.vdict callObj) =>
          let toolName := pyGetD callObj "tool_name" .vnone
          let arguments := pyGetD callObj "arguments" (.vdict [])
          match executeToolLegacy reg httpO clientId toolName arguments with
          | .error e => (.error e, calls + 1)
          | .ok toolResult =>
            let prompt2 := prompt ++ "\nTool \x27" ++ pyStr toolName ++ "\x27 result:\n" ++
              toolResult ++
              "\nNow, based on the tool result, either call another tool or provide the final answer.\n"
            gwtLoop gen loads reg httpO clientId fuel prompt2 (calls + 1)
        | some _ =>
          (.error "\x27list\x27 object has no attribute \x27get\x27", calls + 1)

/-- `ToolOrchestrator.generate_with_tools`: build the system + tools +
user prompt and run the loop with budget `max_tool_calls + 1`, followed
by the finalize call. -/
def generateWithTools (gen : String → String) (loads : String → Option PyVal)
    (reg : LegacyRegistry) (httpO : LegacyHttpOracle) (clientId : String)
    (tools : List LegacyTool) (basePrompt : String) (maxToolCalls : Nat) :
    (Except String String) × Nat :=
  let systemInstructions :=
    "You are a helpful assistant that can use tools. Decide whether a tool is needed. If so, emit a tool call. Otherwise, output the final answer."
  let toolPrompt := buildToolsPrompt tools
  let prompt := "System:\n" ++ systemInstructions ++ "\n\n" ++ toolPrompt ++ "\n\nUser:\n" ++
    basePrompt ++ "\n"
  gwtLoop gen loads reg httpO clientId (maxToolCalls + 1) prompt 0

end ToolOrchestrator

section Helpers

/-- Finding a freshly appended key in an association map none of whose
existing entries carry that key. -/
theorem find_append_self {α : Type} (reg : List (String × α)) (name : String) (v : α)
    (h : reg.any (fun e => e.1 == name) = false) :
    (reg ++ [(name, v)]).find? (fun e => e.1 == name) = some (name, v) := by
  induction reg with
  | nil => simp [List.find?]
  | cons e rest ih =>
    simp only [List.any_cons, Bool.or_eq_false_iff] at h
    simp only [List.cons_append, List.find?, h.1]
    exact ih h.2

/-- A list is a `isPrefixOf` of itself followed by anything. -/
theorem isPrefixOf_append_self (l v : List Char) : l.isPrefixOf (l ++ v) = true := by
  induction l with
  | nil => simp [List.isPrefixOf]
  | cons c rest ih => simp [List.isPrefixOf, ih]

/-- `splitFirst` succeeds when the pattern sits at the front. -/
theorem splitFirst_isSome_of_isPrefixOf (pat s : List Char) (h : pat.isPrefixOf s = true) :
    (splitFirst pat s).isSome = true := by
  cases s with
  | nil =>
    have hpe : pat = [] := by
      cases pat with
      | nil => rfl
      | cons a b => simp [List.isPrefixOf] at h
    simp [splitFirst, hpe]
  | cons c rest => simp [splitFirst, h]

/-- `splitFirst` finds an occurrence that is really there. -/
theorem splitFirst_isSome_of_append (pat u v : List Char) :
    (splitFirst pat (u ++ pat ++ v)).isSome = true := by
  induction u with
  | nil =>
    simp only [List.nil_append]
    exact splitFirst_isSome_of_isPrefixOf pat (pat ++ v) (isPrefixOf_append_self pat v)
  | cons c rest ih =>
    simp only [List.cons_append]
    by_cases hpre : pat.isPrefixOf (c :: (rest ++ pat ++ v)) = true
    · exact splitFirst_isSome_of_isPrefixOf _ _ (by simpa using hpre)
    · rw [Bool.not_eq_true] at hpre
      simp only [List.append_assoc] at hpre ⊢
      simp only [splitFirst, hpre, Bool.false_eq_true, if_false]
      rcases hs : splitFirst pat (rest ++ (pat ++ v)) with _ | ⟨pre, post⟩
      · rw [← List.append_assoc] at hs
        rw [hs] at ih
        simp at ih
      · simp

/-- Substring containment in an explicit decomposition. -/
theorem strContains_of_decomp (s pat : String) (u v : List Char)
    (h : s.data = u ++ pat.data ++ v) : strContains s pat = true := by
  unfold strContains
  rw [h]
  exact splitFirst_isSome_of_append pat.data u v

/-- `random.choice` returns an element of a nonempty list. -/
theorem pyChoice_mem (r : Nat) (l : List String) (h : l ≠ []) : pyChoice r l ∈ l := by
  unfold pyChoice
  have hlen : 0 < l.length := List.length_pos.mpr h
  have hlt : r % l.length < l.length := Nat.mod_lt r hlen
  rw [List.getD_eq_getElem l "" hlt]
  exact List.getElem_mem hlt

end Helpers

/-- Claim C4: on a registry not yet holding the descriptor's name,
`register_tool` succeeds, `get_tool` of that name then returns the very
descriptor, and a second `register_tool` under the same name raises the
duplicate-name `ValueError` (before any mutation: the error is raised in
place of returning an updated map, so the registry is unchanged). -/
theorem registry_register_get (reg : ToolRegistryM) (tool : DynamicToolM)
    (h : reg.any (fun e => e.1 == tool.name) = false) :
    ∃ reg2, registerTool reg tool = .ok reg2 ∧
      getTool reg2 tool.name = some tool ∧
      ∀ tool2 : DynamicToolM, tool2.name = tool.name →
        registerTool reg2 tool2 =
          .error ("Tool with name \x27" ++ tool2.name ++ "\x27 is already registered") := by
  refine ⟨reg ++ [(tool.name, tool)], ?_, ?_, ?_⟩
  · unfold registerTool
    rw [h]
    simp
  · unfold getTool
    rw [find_append_self reg tool.name tool h]
    rfl
  · intro tool2 hname
    unfold registerTool
    have : (reg ++ [(tool.name, tool)]).any (fun e => e.1 == tool2.name) = true := by
      rw [List.any_append]
      simp [hname]
    rw [this]
    simp

/-- Witness for C4 at a concrete registry and descriptor. -/
theorem registry_register_get_witness :
    ∃ reg2, registerTool [] ⟨"echo", "d", [], "custom", []⟩ = .ok reg2 ∧
      getTool reg2 "echo" = some ⟨"echo", "d", [], "custom", []⟩ ∧
      ∀ tool2 : DynamicToolM, tool2.name = "echo" →
        registerTool reg2 tool2 =
          .error ("Tool with name \x27" ++ tool2.name ++ "\x27 is already registered") :=
  registry_register_get [] ⟨"echo", "d", [], "custom", []⟩ rfl

/-- The early `return`s of `DynamicTool.execute` are exactly the two
validation failures, both `success=False` with an error message. -/
theorem dynamicToolExecuteInner_early (httpO : HttpOracle) (calcO : CalcEvalOracle)
    (execO : ExecOracle) (tool : DynamicToolM) (params : PyDict) (r : ToolResponseM)
    (h : dynamicToolExecuteInner httpO calcO execO tool params = .ok (.early r)) :
    r.success = false ∧ r.errorMessage.isSome = true := by
  unfold dynamicToolExecuteInner at h
  rcases hv : validateParameters tool.parametersSchema params with e | b <;>
    rw [hv] at h <;>
    simp only [Except.bind, bind] at h
  · exact absurd h (by simp)
  · by_cases hb : b
    · rw [hb] at h
      simp only [Bool.not_true, Bool.false_eq_true, if_false] at h
      by_cases h1 : tool.toolType == "api"
      · rw [if_pos h1] at h
        rcases ha : executeApiCall httpO tool.config params with e | v <;>
          rw [ha] at h <;> simp [Except.map] at h
      · rw [if_neg h1] at h
        by_cases h2 : tool.toolType == "calculation"
        · rw [if_pos h2] at h
          rcases ha : executeCalculation calcO params with e | v <;>
            rw [ha] at h <;> simp [Except.map] at h
        · rw [if_neg h2] at h
          by_cases h3 : tool.toolType == "custom"
          · rw [if_pos h3] at h
            rcases ha : executeCustom execO tool.config params with e | v <;>
              rw [ha] at h <;> simp [Except.map] at h
          · rw [if_neg h3] at h
            injection h with h4
            injection h4 with h5
            rw [← h5]
            simp
    · rw [Bool.not_eq_true] at hb
      rw [hb] at h
      simp only [Bool.not_false, if_true] at h
      injection h with h4
      injection h4 with h5
      rw [← h5]
      simp

/-- Claim C2: for every dynamic tool, parameter map and behaviour of the
external effects, `execute` returns a `ToolResponse` (it is a total
function: every raised exception is caught); a success carries no error
message, and every failure — invalid parameters, unknown tool kind, or
an exception inside a kind handler — is `success=False` with the reason
recorded in `error_message`. -/
theorem dynamic_tool_execute_total (httpO : HttpOracle) (calcO : CalcEvalOracle)
    (execO : ExecOracle) (tool : DynamicToolM) (params : PyDict) :
    ((tool.execute httpO calcO execO params).success = true ∧
      (tool.execute httpO calcO execO params).errorMessage = none) ∨
    ((tool.execute httpO calcO execO params).success = false ∧
      (tool.execute httpO calcO execO params).errorMessage.isSome = true) := by
  unfold DynamicToolM.execute
  rcases h : dynamicToolExecuteInner httpO calcO execO tool params with e | f
  · right
    simp
  · rcases f with r | v
    · right
      exact dynamicToolExecuteInner_early httpO calcO execO tool params r h
    · left
      simp

/-- On an expression failing the textual filter, `_execute_calculation`
raises the corresponding validation `ValueError` before ever consulting
the evaluator: the error is one of the two filter messages and does not
depend on the evaluation oracle. -/
theorem executeCalculation_blocks (params : PyDict) (s : String)
    (hexpr : pyGetD params "expression" .vnone = .vstr s)
    (hbad : (!(s.data.all calcAllowedChar) ||
      calcForbiddenKeywords.any (fun kw => strContains s kw)) = true) :
    ∃ m, (∀ calcO : CalcEvalOracle, executeCalculation calcO params = .error m) ∧
      (m = "Expression contains forbidden characters" ∨
       ∃ kw ∈ calcForbiddenKeywords, m = "Expression contains forbidden keyword: " ++ kw) := by
  have hkwne : ∀ kw ∈ calcForbiddenKeywords, kw.data ≠ [] := by decide
  have hsne : s.data ≠ [] := by
    rcases Bool.or_eq_true_iff.mp hbad with hchar | hkw
    · intro hnil
      rw [show s.data.all calcAllowedChar = true by rw [hnil]; rfl] at hchar
      simp at hchar
    · rcases List.any_eq_true.mp hkw with ⟨kw, hmem, hcont⟩
      intro hnil
      unfold strContains at hcont
      rw [hnil] at hcont
      unfold splitFirst at hcont
      rw [if_neg (by simpa using hkwne kw hmem)] at hcont
      simp at hcont
  have htruthy : pyTruthy (.vstr s) = true := by
    have hie : s.isEmpty = false := by
      cases hb : s.isEmpty
      · rfl
      · rw [String.isEmpty_iff] at hb
        exact absurd (show s.data = [] by rw [hb]) hsne
    show (!s.isEmpty) = true
    rw [hie]
    rfl
  by_cases hchar : s.data.all calcAllowedChar
  · have hkw : calcForbiddenKeywords.any (fun kw => strContains s kw) = true := by
      rcases Bool.or_eq_true_iff.mp hbad with h | h
      · rw [hchar] at h; simp at h
      · exact h
    rcases hfind : calcForbiddenKeywords.find? (fun kw => strContains s kw) with _ | kw0
    · rw [List.find?_eq_none] at hfind
      rcases List.any_eq_true.mp hkw with ⟨kw, hmem, hcont⟩
      exact absurd hcont (by simpa using hfind kw hmem)
    · refine ⟨"Expression contains forbidden keyword: " ++ kw0, ?_, ?_⟩
      · intro calcO
        unfold executeCalculation
        simp only [hexpr, htruthy, hchar, hfind, Bool.not_true, Bool.false_eq_true, if_false]
      · exact Or.inr ⟨kw0, List.mem_of_find?_eq_some hfind, rfl⟩
  · refine ⟨"Expression contains forbidden characters", ?_, Or.inl rfl⟩
    intro calcO
    rw [Bool.not_eq_true] at hchar
    unfold executeCalculation
    simp only [hexpr, htruthy, hchar, Bool.not_true, Bool.not_false, Bool.false_eq_true,
      if_false, if_true]

/-- Claim C5: a `calculation`-kind execution whose expression contains a
character outside the allow list or one of the forbidden keywords
returns a failed `ToolResponse` whose error message is the corresponding
validation error, and the expression is never evaluated: the response is
the same for every evaluation oracle. -/
theorem calculation_filter_blocks (httpO : HttpOracle) (execO : ExecOracle)
    (tool : DynamicToolM) (params : PyDict) (s : String)
    (htype : tool.toolType = "calculation")
    (hvalid : validateParameters tool.parametersSchema params = .ok true)
    (hexpr : pyGetD params "expression" .vnone = .vstr s)
    (hbad : (!(s.data.all calcAllowedChar) ||
      calcForbiddenKeywords.any (fun kw => strContains s kw)) = true) :
    ∃ m, (∀ calcO : CalcEvalOracle, tool.execute httpO calcO execO params =
        { success := false, result := .vnone, errorMessage := some m }) ∧
      (m = "Expression contains forbidden characters" ∨
       ∃ kw ∈ calcForbiddenKeywords, m = "Expression contains forbidden keyword: " ++ kw) := by
  obtain ⟨m, hall, hm⟩ := executeCalculation_blocks params s hexpr hbad
  refine ⟨m, ?_, hm⟩
  intro calcO
  unfold DynamicToolM.execute dynamicToolExecuteInner
  rw [hvalid]
  simp only [Except.bind, bind, Bool.not_true, Bool.false_eq_true, if_false, htype]
  rw [hall calcO]
  simp [Except.map]

/-- Witness for C5: a concrete calculation tool and an expression
containing the forbidden keyword `import`. -/
theorem calculation_filter_blocks_witness :
    ∃ m, (∀ calcO : CalcEvalOracle,
        DynamicToolM.execute (fun _ _ _ _ _ => .error "network unavailable") calcO
          (fun _ _ => .error "not executed")
          ⟨"calc", "d", [], "calculation", []⟩
          [("expression", .vstr "2+2 - import x")] =
        { success := false, result := .vnone, errorMessage := some m }) ∧
      (m = "Expression contains forbidden characters" ∨
       ∃ kw ∈ calcForbiddenKeywords, m = "Expression contains forbidden keyword: " ++ kw) :=
  calculation_filter_blocks (fun _ _ _ _ _ => .error "network unavailable")
    (fun _ _ => .error "not executed")
    ⟨"calc", "d", [], "calculation", []⟩
    [("expression", .vstr "2+2 - import x")] "2+2 - import x"
    rfl rfl rfl (by decide)

/-- Counterexample for C9: a dynamic tool of type `function` whose schema
requires parameter `x`, executed with an empty parameter map, fails with
`Invalid parameters provided` — not with an `Unknown tool type` error,
so not *every* execute call on a `function`/`database` tool carries the
`Unknown tool type` message. -/
theorem dispatch_message_cex :
    DynamicToolM.execute (fun _ _ _ _ _ => .error "network unavailable")
        (fun _ _ => .error "not evaluated") (fun _ _ => .error "not executed")
        ⟨"f", "d", [("required", .vlist [.vstr "x"])], "function", []⟩ [] =
      { success := false, result := .vnone, errorMessage := some "Invalid parameters provided" } ∧
    some "Invalid parameters provided" ≠ some ("Unknown tool type: " ++ "function") :=
  ⟨rfl, by decide⟩

/-- Claim C9 (amended): dynamic-tool registration accepts the types
`function` and `database` (among the four valid types), yet
`DynamicTool.execute` dispatches only on `api` / `calculation` /
`custom`; every execute call that passes parameter validation on a tool
of type `function` or `database` therefore fails with the
`Unknown tool type` error (a call failing validation instead fails with
`Invalid parameters provided`). -/
theorem function_database_unknown_type_amended :
    (∀ (reg : ToolRegistryM) (req : ToolRegistrationRequestM) (cfg : PyDict),
      reg.any (fun e => e.1 == req.name) = false →
      (req.toolType = "function" ∨ req.toolType = "database") →
      ∃ tool, registerDynamicTool reg req cfg = .ok (reg ++ [(req.name, tool)], tool) ∧
        tool.toolType = req.toolType) ∧
    (∀ (httpO : HttpOracle) (calcO : CalcEvalOracle) (execO : ExecOracle)
       (tool : DynamicToolM) (params : PyDict),
      validateParameters tool.parametersSchema params = .ok true →
      (tool.toolType = "function" ∨ tool.toolType = "database") →
      tool.execute httpO calcO execO params =
        { success := false, result := .vnone,
          errorMessage := some ("Unknown tool type: " ++ tool.toolType) }) := by
  constructor
  · intro reg req cfg hname htype
    refine ⟨⟨req.name, req.description, req.parametersSchema, req.toolType, cfg⟩, ?_, rfl⟩
    unfold registerDynamicTool
    rw [hname]
    have hc : validToolTypes.contains req.toolType = true := by
      rcases htype with h | h <;> rw [h] <;> decide
    rw [hc]
    simp only [Bool.not_true, Bool.false_eq_true, if_false]
  · intro httpO calcO execO tool params hvalid htype
    unfold DynamicToolM.execute dynamicToolExecuteInner
    rw [hvalid]
    simp only [Except.bind, bind, Bool.not_true, Bool.false_eq_true, if_false]
    rcases htype with h | h <;> rw [h] <;> simp

/-- Witness for C9 at concrete registrations and tools. -/
theorem function_database_unknown_type_witness :
    (∃ tool, registerDynamicTool [] ⟨"pipe", "d", [], "function"⟩ [] =
        .ok ([] ++ [("pipe", tool)], tool) ∧ tool.toolType = "function") ∧
    DynamicToolM.execute (fun _ _ _ _ _ => .error "network unavailable")
        (fun _ _ => .error "not evaluated") (fun _ _ => .error "not executed")
        ⟨"db", "d", [], "database", []⟩ [] =
      { success := false, result := .vnone,
        errorMessage := some ("Unknown tool type: " ++ "database") } :=
  ⟨function_database_unknown_type_amended.1 [] ⟨"pipe", "d", [], "function"⟩ [] rfl (Or.inl rfl),
   function_database_unknown_type_amended.2 (fun _ _ _ _ _ => .error "network unavailable")
     (fun _ _ => .error "not evaluated") (fun _ _ => .error "not executed")
     ⟨"db", "d", [], "database", []⟩ [] rfl (Or.inr rfl)⟩

/-- Claim C3: executing a defined workflow `[A, B, C]` where `A` succeeds
and `B` fails runs exactly `A` and `B` — `C` never executes — returns a
`failed` execution record containing `B`'s error, with `A`'s output map
already merged into the shared context, and appends that record to the
in-memory execution history. -/
theorem workflow_fail_fast (mgr : WorkflowManagerM)
    (stepRun : Option PyDict → PyDict → StepResultM)
    (name : String) (ctx : PyDict) (execId : String)
    (entry : WorkflowEntryM) (sA sB sC : Option PyDict)
    (rA rB : StepResultM) (ctx1 : PyDict) (eB : String)
    (hfind : mgr.workflows.find? (fun e => e.1 == name) = some (name, entry))
    (hsteps : entry.steps = some [sA, sB, sC])
    (hA : stepRun sA ctx = rA) (hAs : rA.success = true)
    (hctx1 : ctx1 = (match rA.output.getD (.vdict []) with
      | .vdict es => pyDictUpdate ctx es
      | _ => ctx))
    (hB : stepRun sB ctx1 = rB) (hBs : rB.success = false) (hBe : rB.error = some eB) :
    ∃ rec0 : ExecutionRecordM,
      (executeWorkflow mgr stepRun name ctx execId).1 = .record rec0 ∧
      (executeWorkflow mgr stepRun name ctx execId).2.executionHistory =
        mgr.executionHistory ++ [rec0] ∧
      rec0.status = "failed" ∧ rec0.steps = [rA, rB] ∧
      rec0.error = some eB ∧ rec0.context = ctx1 := by
  have hloop : wfLoop stepRun [sA, sB, sC] ctx [] = .failedStep [rA, rB] ctx1 eB := by
    unfold wfLoop
    rw [hA]
    simp only [hAs, if_true, List.nil_append]
    rw [← hctx1]
    unfold wfLoop
    rw [hB]
    simp only [hBs, Bool.false_eq_true, if_false, hBe]
    rfl
  refine ⟨⟨execId, name, "failed", [rA, rB], ctx1, some eB⟩, ?_, ?_, rfl, rfl, rfl, rfl⟩ <;>
    · unfold executeWorkflow
      rw [hfind]
      dsimp only
      rw [hsteps]
      dsimp only
      rw [hloop]

/-- Witness for C3 at a concrete manager, workflow and step semantics. -/
theorem workflow_fail_fast_witness :
    ∃ rec0 : ExecutionRecordM,
      (executeWorkflow
          ⟨[("wf", ⟨some [some [("name", .vstr "A")], some [("name", .vstr "B")],
              some [("name", .vstr "C")]], "defined"⟩)], []⟩
          (fun s _ =>
            match s with
            | some (("name", PyVal.vstr n) :: _) =>
              if n == "A" then ⟨.vstr n, .vstr "t", true, some (.vdict [("a", .vstr "1")]), none⟩
              else ⟨.vstr n, .vstr "t", false, none, some "boom"⟩
            | _ => ⟨.vnone, .vnone, false, none, some "bad step"⟩)
          "wf" [] "exec-1").1 = .record rec0 ∧
      (executeWorkflow
          ⟨[("wf", ⟨some [some [("name", .vstr "A")], some [("name", .vstr "B")],
              some [("name", .vstr "C")]], "defined"⟩)], []⟩
          (fun s _ =>
            match s with
            | some (("name", PyVal.vstr n) :: _) =>
              if n == "A" then ⟨.vstr n, .vstr "t", true, some (.vdict [("a", .vstr "1")]), none⟩
              else ⟨.vstr n, .vstr "t", false, none, some "boom"⟩
            | _ => ⟨.vnone, .vnone, false, none, some "bad step"⟩)
          "wf" [] "exec-1").2.executionHistory = [] ++ [rec0] ∧
      rec0.status = "failed" ∧
      rec0.steps = [⟨.vstr "A", .vstr "t", true, some (.vdict [("a", .vstr "1")]), none⟩,
        ⟨.vstr "B", .vstr "t", false, none, some "boom"⟩] ∧
      rec0.error = some "boom" ∧ rec0.context = [("a", .vstr "1")] :=
  workflow_fail_fast
    ⟨[("wf", ⟨some [some [("name", .vstr "A")], some [("name", .vstr "B")],
        some [("name", .vstr "C")]], "defined"⟩)], []⟩
    (fun s _ =>
      match s with
      | some (("name", PyVal.vstr n) :: _) =>
        if n == "A" then ⟨.vstr n, .vstr "t", true, some (.vdict [("a", .vstr "1")]), none⟩
        else ⟨.vstr n, .vstr "t", false, none, some "boom"⟩
      | _ => ⟨.vnone, .vnone, false, none, some "bad step"⟩)
    "wf" [] "exec-1"
    ⟨some [some [("name", .vstr "A")], some [("name", .vstr "B")],
      some [("name", .vstr "C")]], "defined"⟩
    (some [("name", .vstr "A")]) (some [("name", .vstr "B")]) (some [("name", .vstr "C")])
    ⟨.vstr "A", .vstr "t", true, some (.vdict [("a", .vstr "1")]), none⟩
    ⟨.vstr "B", .vstr "t", false, none, some "boom"⟩
    [("a", .vstr "1")] "boom"
    rfl rfl rfl rfl rfl rfl rfl rfl

/-- A condition step whose expression evaluates cleanly yields
`success=True` with the value under `condition_result`. -/
theorem executeStep_condition_ok (toolH agentH : StepHandlerOracle)
    (evalO : String → PyDict → Except String PyVal) (step : PyDict) (ctx : PyDict)
    (cond : String) (v : PyVal)
    (htype : pyGetD step "type" .vnone = .vstr "condition")
    (hcond : pyGetD step "condition" (.vstr "") = .vstr cond)
    (heval : evalO cond ctx = .ok v) :
    executeStep toolH agentH evalO (some step) ctx =
      { stepName := pyGetD step "name" (.vstr "unknown")
        stepType := pyGetD step "type" (.vstr "unknown")
        success := true
        output := some (.vdict [("condition_result", v)])
        error := none } := by
  unfold executeStep executeConditionStep
  dsimp only
  rw [htype, hcond]
  simp [pyEqStr, heval]

/-- A condition step whose expression evaluation raises yields
`success=False` with a `Condition evaluation failed:` error. -/
theorem executeStep_condition_err (toolH agentH : StepHandlerOracle)
    (evalO : String → PyDict → Except String PyVal) (step : PyDict) (ctx : PyDict)
    (cond : String) (e : String)
    (htype : pyGetD step "type" .vnone = .vstr "condition")
    (hcond : pyGetD step "condition" (.vstr "") = .vstr cond)
    (heval : evalO cond ctx = .error e) :
    executeStep toolH agentH evalO (some step) ctx =
      { stepName := pyGetD step "name" (.vstr "unknown")
        stepType := pyGetD step "type" (.vstr "unknown")
        success := false
        output := none
        error := some ("Condition evaluation failed: " ++ e) } := by
  unfold executeStep executeConditionStep
  dsimp only
  rw [htype, hcond]
  simp [pyEqStr, heval]

/-- Claim C10: a condition step whose expression evaluates without
raising has `success=True` regardless of the value's truth — the value
is recorded under output key `condition_result` — and only a raised
evaluation error makes the step fail; consequently a workflow does not
halt at a condition that evaluates to `False`: the following step still
runs and the execution completes. -/
theorem condition_step_success :
    (∀ (toolH agentH : StepHandlerOracle) (evalO : String → PyDict → Except String PyVal)
       (step ctx : PyDict) (cond : String) (v : PyVal),
      pyGetD step "type" .vnone = .vstr "condition" →
      pyGetD step "condition" (.vstr "") = .vstr cond →
      evalO cond ctx = .ok v →
      (executeStep toolH agentH evalO (some step) ctx).success = true ∧
      (executeStep toolH agentH evalO (some step) ctx).output =
        some (.vdict [("condition_result", v)]) ∧
      (executeStep toolH agentH evalO (some step) ctx).error = none) ∧
    (∀ (toolH agentH : StepHandlerOracle) (evalO : String → PyDict → Except String PyVal)
       (step ctx : PyDict) (cond : String) (e : String),
      pyGetD step "type" .vnone = .vstr "condition" →
      pyGetD step "condition" (.vstr "") = .vstr cond →
      evalO cond ctx = .error e →
      (executeStep toolH agentH evalO (some step) ctx).success = false ∧
      (executeStep toolH agentH evalO (some step) ctx).error =
        some ("Condition evaluation failed: " ++ e)) ∧
    (∀ (toolH agentH : StepHandlerOracle) (evalO : String → PyDict → Except String PyVal)
       (mgr : WorkflowManagerM) (name : String) (ctx : PyDict) (execId : String)
       (entry : WorkflowEntryM) (s1 s2 : PyDict) (c1 c2 : String) (v2 : PyVal),
      mgr.workflows.find? (fun e => e.1 == name) = some (name, entry) →
      entry.steps = some [some s1, some s2] →
      pyGetD s1 "type" .vnone = .vstr "condition" →
      pyGetD s1 "condition" (.vstr "") = .vstr c1 →
      evalO c1 ctx = .ok (.vbool false) →
      pyGetD s2 "type" .vnone = .vstr "condition" →
      pyGetD s2 "condition" (.vstr "") = .vstr c2 →
      evalO c2 (pyDictUpdate ctx [("condition_result", .vbool false)]) = .ok v2 →
      ∃ rec0 : ExecutionRecordM,
        (executeWorkflow mgr (executeStep toolH agentH evalO) name ctx execId).1 = .record rec0 ∧
        rec0.status = "completed" ∧ rec0.steps.length = 2 ∧
        (executeWorkflow mgr (executeStep toolH agentH evalO) name ctx execId).2.executionHistory =
          mgr.executionHistory ++ [rec0]) := by
  refine ⟨?_, ?_, ?_⟩
  · intro toolH agentH evalO step ctx cond v htype hcond heval
    rw [executeStep_condition_ok toolH agentH evalO step ctx cond v htype hcond heval]
    exact ⟨rfl, rfl, rfl⟩
  · intro toolH agentH evalO step ctx cond e htype hcond heval
    rw [executeStep_condition_err toolH agentH evalO step ctx cond e htype hcond heval]
    exact ⟨rfl, rfl⟩
  · intro toolH agentH evalO mgr name ctx execId entry s1 s2 c1 c2 v2
      hfind hsteps htype1 hcond1 heval1 htype2 hcond2 heval2
    have h1 := executeStep_condition_ok toolH agentH evalO s1 ctx c1 (.vbool false)
      htype1 hcond1 heval1
    have h2 := executeStep_condition_ok toolH agentH evalO s2
      (pyDictUpdate ctx [("condition_result", .vbool false)]) c2 v2 htype2 hcond2 heval2
    have hloop : wfLoop (executeStep toolH agentH evalO) [some s1, some s2] ctx [] =
        .finished
          [{ stepName := pyGetD s1 "name" (.vstr "unknown")
             stepType := pyGetD s1 "type" (.vstr "unknown")
             success := true
             output := some (.vdict [("condition_result", .vbool false)])
             error := none },
           { stepName := pyGetD s2 "name" (.vstr "unknown")
             stepType := pyGetD s2 "type" (.vstr "unknown")
             success := true
             output := some (.vdict [("condition_result", v2)])
             error := none }]
          (pyDictUpdate (pyDictUpdate ctx [("condition_result", .vbool false)])
            [("condition_result", v2)]) := by
      unfold wfLoop
      rw [h1]
      simp only [Option.getD]
      unfold wfLoop
      rw [h2]
      simp only [Option.getD]
      unfold wfLoop
      rfl
    refine ⟨⟨execId, name, "completed",
      [⟨pyGetD s1 "name" (.vstr "unknown"), pyGetD s1 "type" (.vstr "unknown"), true,
        some (.vdict [("condition_result", .vbool false)]), none⟩,
       ⟨pyGetD s2 "name" (.vstr "unknown"), pyGetD s2 "type" (.vstr "unknown"), true,
        some (.vdict [("condition_result", v2)]), none⟩],
      pyDictUpdate (pyDictUpdate ctx [("condition_result", .vbool false)])
        [("condition_result", v2)], none⟩, ?_, rfl, rfl, ?_⟩ <;>
      · unfold executeWorkflow
        rw [hfind]
        dsimp only
        rw [hsteps]
        dsimp only
        rw [hloop]

/-- Witness for C10: a concrete two-condition workflow whose first
condition evaluates to `False` still runs the second step and
completes. -/
theorem condition_step_success_witness :
    ∃ rec0 : ExecutionRecordM,
      (executeWorkflow ⟨[("wf", ⟨some [some [("type", .vstr "condition"), ("condition", .vstr "False")],
            some [("type", .vstr "condition"), ("condition", .vstr "True")]], "defined"⟩)], []⟩
        (executeStep (fun _ _ => .error "no tool") (fun _ _ => .error "no agent")
          (fun c _ => if c == "False" then .ok (.vbool false) else .ok (.vbool true)))
        "wf" [] "exec-2").1 = .record rec0 ∧
      rec0.status = "completed" ∧ rec0.steps.length = 2 ∧
      (executeWorkflow ⟨[("wf", ⟨some [some [("type", .vstr "condition"), ("condition", .vstr "False")],
            some [("type", .vstr "condition"), ("condition", .vstr "True")]], "defined"⟩)], []⟩
        (executeStep (fun _ _ => .error "no tool") (fun _ _ => .error "no agent")
          (fun c _ => if c == "False" then .ok (.vbool false) else .ok (.vbool true)))
        "wf" [] "exec-2").2.executionHistory = [] ++ [rec0] :=
  condition_step_success.2.2 (fun _ _ => .error "no tool") (fun _ _ => .error "no agent")
    (fun c _ => if c == "False" then .ok (.vbool false) else .ok (.vbool true))
    ⟨[("wf", ⟨some [some [("type", .vstr "condition"), ("condition", .vstr "False")],
        some [("type", .vstr "condition"), ("condition", .vstr "True")]], "defined"⟩)], []⟩
    "wf" [] "exec-2"
    ⟨some [some [("type", .vstr "condition"), ("condition", .vstr "False")],
      some [("type", .vstr "condition"), ("condition", .vstr "True")]], "defined"⟩
    [("type", .vstr "condition"), ("condition", .vstr "False")]
    [("type", .vstr "condition"), ("condition", .vstr "True")]
    "False" "True" (.vbool true)
    rfl rfl rfl rfl rfl rfl rfl rfl

/-- The renderer's fuel argument is irrelevant as long as it covers the
input length (each recursive call shortens the input by at least one
character while spending one unit of fuel). -/
theorem renderCharsF_fuel_irrel (ctx : PyDict) :
    ∀ (n : Nat) (cs : List Char) (f1 f2 : Nat), cs.length ≤ n →
      cs.length ≤ f1 → cs.length ≤ f2 →
      renderCharsF ctx f1 cs = renderCharsF ctx f2 cs := by
  intro n
  induction n with
  | zero =>
    intro cs f1 f2 hn _ _
    have : cs = [] := List.length_eq_zero.mp (Nat.le_zero.mp hn)
    subst this
    cases f1 <;> cases f2 <;> rfl
  | succ n ih =>
    intro cs f1 f2 hn h1 h2
    cases cs with
    | nil => cases f1 <;> cases f2 <;> rfl
    | cons c rest =>
      rcases f1 with _ | f1
      · exact absurd h1 (by simp)
      · rcases f2 with _ | f2
        · exact absurd h2 (by simp)
        · simp only [List.length_cons, Nat.succ_le_succ_iff] at hn h1 h2
          show renderCharsF ctx (f1 + 1) (c :: rest) = renderCharsF ctx (f2 + 1) (c :: rest)
          unfold renderCharsF
          by_cases hc : c == lbrace
          · rw [hc]
            simp only [if_true]
            cases rest with
            | nil => rfl
            | cons c2 rest2 =>
              dsimp only
              by_cases hc2 : c2 == lbrace
              · rw [hc2]
                simp only [if_true]
                rcases hx : extractVar rest2 with _ | ⟨varCs, rest3⟩
                · dsimp only
                  have hlen : (c2 :: rest2).length ≤ n := by
                    simp only [List.length_cons] at hn ⊢
                    omega
                  rw [ih (c2 :: rest2) f1 f2 hlen
                    (by simp only [List.length_cons] at h1 ⊢; omega)
                    (by simp only [List.length_cons] at h2 ⊢; omega)]
                · dsimp only
                  have hrest3 := extractVar_rest_lt rest2 varCs rest3 hx
                  have hlen : rest3.length ≤ n := by
                    simp only [List.length_cons] at hn
                    omega
                  rw [ih rest3 f1 f2 hlen
                    (by simp only [List.length_cons] at h1; omega)
                    (by simp only [List.length_cons] at h2; omega)]
              · rw [Bool.not_eq_true] at hc2
                rw [hc2]
                simp only [Bool.false_eq_true, if_false]
                have hlen : (c2 :: rest2).length ≤ n := by
                  simp only [List.length_cons] at hn ⊢
                  omega
                rw [ih (c2 :: rest2) f1 f2 hlen
                  (by simp only [List.length_cons] at h1 ⊢; omega)
                  (by simp only [List.length_cons] at h2 ⊢; omega)]
          · rw [Bool.not_eq_true] at hc
            rw [hc]
            simp only [Bool.false_eq_true, if_false]
            rw [ih rest f1 f2 (by omega) h1 h2]

/-- Any sufficient fuel computes `renderChars`. -/
theorem renderCharsF_eq_renderChars (ctx : PyDict) (cs : List Char) (fuel : Nat)
    (h : cs.length ≤ fuel) : renderCharsF ctx fuel cs = renderChars ctx cs :=
  renderCharsF_fuel_irrel ctx fuel cs fuel cs.length h h (Nat.le_refl _)

/-- `takeWhile` passes over a fully-satisfying prefix. -/
theorem takeWhile_append_all (p : Char → Bool) (l X : List Char) (h : l.all p = true) :
    (l ++ X).takeWhile p = l ++ X.takeWhile p := by
  induction l with
  | nil => simp
  | cons c rest ih =>
    simp only [List.all_cons, Bool.and_eq_true] at h
    simp only [List.cons_append, List.takeWhile_cons, h.1, if_true]
    rw [ih h.2]

/-- `dropWhile` skips a fully-satisfying prefix. -/
theorem dropWhile_append_all (p : Char → Bool) (l X : List Char) (h : l.all p = true) :
    (l ++ X).dropWhile p = X.dropWhile p := by
  induction l with
  | nil => simp
  | cons c rest ih =>
    simp only [List.all_cons, Bool.and_eq_true] at h
    simp only [List.cons_append, List.dropWhile_cons, h.1, if_true]
    exact ih h.2

/-- On a well-formed placeholder tail — a nonempty brace-free variable
text followed by the closing double brace — `extractVar` captures
exactly the variable text. -/
theorem extractVar_clean (varCs post : List Char) (hne : varCs ≠ [])
    (hclean : varCs.all (fun c => c != rbrace) = true) :
    extractVar (varCs ++ rbrace :: rbrace :: post) = some (varCs, post) := by
  unfold extractVar
  rw [dropWhile_append_all _ varCs _ hclean,
    takeWhile_append_all _ varCs _ hclean]
  have hrb : (fun c => c != rbrace) rbrace = false := by simp
  simp only [List.dropWhile_cons, List.takeWhile_cons, hrb, Bool.false_eq_true, if_false,
    List.append_nil]
  rw [if_pos]
  simp only [Bool.and_eq_true, Bool.not_eq_true']
  refine ⟨⟨?_, ?_⟩, ?_⟩
  · cases varCs with
    | nil => exact absurd rfl hne
    | cons a b => rfl
  · exact beq_self_eq_true rbrace
  · exact beq_self_eq_true rbrace

/-- The scan equation for a single well-formed placeholder: on a
template `pre ++ "\x7b\x7b" ++ var ++ "\x7d\x7d" ++ post` whose prefix
contains no opening brace and whose variable text is nonempty and
brace-free, the renderer emits the prefix, the replacement of the
placeholder (resolved value, verbatim placeholder, or a raised
`IndexError`), and the rendering of the remainder. -/
theorem renderChars_single (ctx : PyDict) (pre varCs post : List Char)
    (hpre : pre.all (fun c => c != lbrace) = true)
    (hne : varCs ≠ []) (hclean : varCs.all (fun c => c != rbrace) = true) :
    renderChars ctx (pre ++ lbrace :: lbrace :: (varCs ++ rbrace :: rbrace :: post)) =
      (renderReplacement ctx varCs).bind (fun rep =>
        (renderChars ctx post).map (fun tail => pre ++ rep ++ tail)) := by
  induction pre with
  | nil =>
    simp only [List.nil_append]
    unfold renderChars
    simp only [List.length_cons]
    simp only [renderCharsF]
    rw [show (lbrace == lbrace) = true from beq_self_eq_true lbrace]
    simp only [if_true]
    rw [extractVar_clean varCs post hne hclean]
    dsimp only
    rw [renderCharsF_fuel_irrel ctx ((varCs ++ rbrace :: rbrace :: post).length + 1) post
      ((varCs ++ rbrace :: rbrace :: post).length + 1) post.length
      (by simp only [List.length_append, List.length_cons]; omega)
      (by simp only [List.length_append, List.length_cons]; omega)
      (Nat.le_refl _)]
    rcases renderReplacement ctx varCs with e | rep
    · rfl
    · rcases renderCharsF ctx post.length post with e | tail
      · rfl
      · rfl
  | cons c pre2 ih =>
    simp only [List.all_cons, Bool.and_eq_true] at hpre
    have hc : (c == lbrace) = false := by
      have := hpre.1
      simp only [bne_iff_ne] at this
      exact beq_eq_false_iff_ne.mpr this
    have hrw := ih hpre.2
    unfold renderChars at hrw ⊢
    simp only [List.cons_append, List.length_cons]
    simp only [renderCharsF]
    rw [hc]
    simp only [Bool.false_eq_true, if_false]
    rw [hrw]
    rcases renderReplacement ctx varCs with e | rep
    · rfl
    · rcases renderCharsF ctx post.length post with e | tail
      · rfl
      · rfl

instance : DecidableEq (Except String String) := fun a b =>
  match a, b with
  | .ok x, .ok y =>
    if h : x = y then isTrue (by rw [h]) else isFalse (fun c => by cases c; exact h rfl)
  | .error x, .error y =>
    if h : x = y then isTrue (by rw [h]) else isFalse (fun c => by cases c; exact h rfl)
  | .ok _, .error _ => isFalse (fun c => by cases c)
  | .error _, .ok _ => isFalse (fun c => by cases c)

/-- Counterexample for C7: tool-call parameter templates do not receive
dotted-path resolution.  For the spec's own example — context
`\x7b"user": \x7b"name": "Lee"\x7d\x7d` and template
`"Hello \x7b\x7buser.name\x7d\x7d"` — `_render_template` yields
`"Hello Lee"`, but `_prepare_parameters` leaves the parameter value
completely unchanged (it only substitutes values that are exactly one
placeholder, by flat top-level lookup), contradicting the claim that the
same resolution applies to tool-call parameter templates. -/
theorem template_param_resolution_cex :
    renderTemplate "Hello \x7b\x7buser.name\x7d\x7d"
        [("user", .vdict [("name", .vstr "Lee")])] = .ok "Hello Lee" ∧
    prepareParameters [("msg", .vstr "Hello \x7b\x7buser.name\x7d\x7d")]
        [("user", .vdict [("name", .vstr "Lee")])] =
      [("msg", .vstr "Hello \x7b\x7buser.name\x7d\x7d")] ∧
    prepareParameters [("msg", .vstr "Hello \x7b\x7buser.name\x7d\x7d")]
        [("user", .vdict [("name", .vstr "Lee")])] ≠
      [("msg", .vstr "Hello Lee")] := by
  refine ⟨by decide, rfl, ?_⟩
  intro h
  have h2 := congrArg (fun l => match l with
    | [(_, PyVal.vstr s)] => s
    | _ => "") h
  simp only at h2
  rw [show prepareParameters [("msg", .vstr "Hello \x7b\x7buser.name\x7d\x7d")]
      [("user", .vdict [("name", .vstr "Lee")])] =
      [("msg", .vstr "Hello \x7b\x7buser.name\x7d\x7d")] from rfl] at h
  have h3 := congrArg (fun l => match l with
    | [(_, PyVal.vstr s)] => s
    | _ => "") h
  simp only at h3
  exact absurd h3 (by decide)

/-- Claim C7 (amended): in `_render_template` (used for agent-call prompt
templates) every well-formed `\x7b\x7bpath\x7d\x7d` placeholder is
processed by dotted-path lookup — a path resolving to a non-`None` value
is replaced by the value's `str`, a path that misses (or resolves to
`None`) leaves the placeholder verbatim, and a digit list index out of
range raises `IndexError` instead of leaving the placeholder; in
particular `"Hello \x7b\x7buser.name\x7d\x7d"` renders `"Hello Lee"`.
Tool-call parameter templates (`_prepare_parameters`) do not use this
resolution: only a value that is exactly one placeholder is substituted,
by flat top-level `context.get` of the stripped inner text. -/
theorem template_resolution_amended :
    (∀ (ctx : PyDict) (pre varCs post : List Char),
      pre.all (fun c => c != lbrace) = true → varCs ≠ [] →
      varCs.all (fun c => c != rbrace) = true →
      renderChars ctx (pre ++ lbrace :: lbrace :: (varCs ++ rbrace :: rbrace :: post)) =
        (renderReplacement ctx varCs).bind (fun rep =>
          (renderChars ctx post).map (fun tail => pre ++ rep ++ tail))) ∧
    (∀ (ctx : PyDict) (varCs : List Char) (v : PyVal),
      getNestedValue (.vdict ctx)
        ((splitOnChar '.' (stripChars varCs)).map String.mk) = .ok v →
      v ≠ .vnone →
      renderReplacement ctx varCs = .ok (pyStr v).data) ∧
    (∀ (ctx : PyDict) (varCs : List Char),
      getNestedValue (.vdict ctx)
        ((splitOnChar '.' (stripChars varCs)).map String.mk) = .ok .vnone →
      renderReplacement ctx varCs = .ok (lbrace :: lbrace :: (varCs ++ [rbrace, rbrace]))) ∧
    renderTemplate "Hello \x7b\x7buser.name\x7d\x7d"
      [("user", .vdict [("name", .vstr "Lee")])] = .ok "Hello Lee" ∧
    renderTemplate "A \x7b\x7bmissing.path\x7d\x7d B" [("user", .vdict [])] =
      .ok "A \x7b\x7bmissing.path\x7d\x7d B" ∧
    renderTemplate "\x7b\x7bxs.5\x7d\x7d" [("xs", .vlist [.vstr "a"])] =
      .error "list index out of range" ∧
    prepareParameters [("msg", .vstr "\x7b\x7binput\x7d\x7d")] [("input", .vstr "hi")] =
      [("msg", .vstr "hi")] := by
  refine ⟨renderChars_single, ?_, ?_, by decide, by decide, by decide, rfl⟩
  · intro ctx varCs v hget hne
    unfold renderReplacement
    rw [hget]
    cases v with
    | vnone => exact absurd rfl hne
    | vbool b => rfl
    | vint n => rfl
    | vstr s => rfl
    | vlist xs => rfl
    | vdict es => rfl
  · intro ctx varCs hget
    unfold renderReplacement
    rw [hget]

/-- Witness for C7's quantified parts at a concrete placeholder. -/
theorem template_resolution_amended_witness :
    renderChars [("user", .vdict [("name", .vstr "Lee")])]
        ("Hello ".data ++ lbrace :: lbrace :: ("user.name".data ++ rbrace :: rbrace :: [])) =
      (renderReplacement [("user", .vdict [("name", .vstr "Lee")])] "user.name".data).bind
        (fun rep => (renderChars [("user", .vdict [("name", .vstr "Lee")])] []).map
          (fun tail => "Hello ".data ++ rep ++ tail)) ∧
    renderReplacement [("user", .vdict [("name", .vstr "Lee")])] "user.name".data =
      .ok (pyStr (.vstr "Lee")).data :=
  ⟨template_resolution_amended.1 [("user", .vdict [("name", .vstr "Lee")])]
      "Hello ".data "user.name".data [] (by decide) (by decide) (by decide),
   template_resolution_amended.2.1 [("user", .vdict [("name", .vstr "Lee")])]
      "user.name".data (.vstr "Lee") rfl (fun h => PyVal.noConfusion h)⟩

/-- `String.data` distributes over append. -/
theorem strData_append (a b : String) : (a ++ b).data = a.data ++ b.data := rfl

/-- Soundness of `splitFirst`: a successful split is a decomposition
around the pattern. -/
theorem splitFirst_sound (pat : List Char) :
    ∀ (s pre post : List Char), splitFirst pat s = some (pre, post) →
      s = pre ++ pat ++ post := by
  intro s
  induction s with
  | nil =>
    intro pre post h
    unfold splitFirst at h
    by_cases he : pat.isEmpty
    · rw [if_pos he] at h
      injection h with h1
      injection h1 with h2 h3
      rw [← h2, ← h3, List.isEmpty_iff.mp he]
      rfl
    · rw [if_neg he] at h
      exact absurd h (by simp)
  | cons c rest ih =>
    intro pre post h
    unfold splitFirst at h
    by_cases hpre : pat.isPrefixOf (c :: rest) = true
    · rw [if_pos hpre] at h
      injection h with h1
      injection h1 with h2 h3
      rcases (List.isPrefixOf_iff_prefix.mp hpre) with ⟨t, ht⟩
      rw [← h2, ← h3, List.nil_append, ← ht, List.drop_left]
    · rw [Bool.not_eq_true] at hpre
      rw [hpre] at h
      simp only [Bool.false_eq_true, if_false] at h
      rcases hs : splitFirst pat rest with _ | ⟨pre2, post2⟩ <;> rw [hs] at h
      · exact absurd h (by simp)
      · injection h with h1
        injection h1 with h2 h3
        rw [← h2, ← h3]
        have := ih pre2 post2 hs
        rw [List.cons_append, List.cons_append, ← this]

/-- Containment survives appending on the right. -/
theorem strContains_append_left (s t pat : String) (h : strContains s pat = true) :
    strContains (s ++ t) pat = true := by
  unfold strContains at h
  rcases hs : splitFirst pat.data s.data with _ | ⟨pre, post⟩
  · rw [hs] at h; simp at h
  · have hdec := splitFirst_sound pat.data s.data pre post hs
    apply strContains_of_decomp _ _ pre (post ++ t.data)
    rw [strData_append, hdec]
    simp [List.append_assoc]

/-- Containment survives appending on the left. -/
theorem strContains_append_right (s t pat : String) (h : strContains t pat = true) :
    strContains (s ++ t) pat = true := by
  unfold strContains at h
  rcases hs : splitFirst pat.data t.data with _ | ⟨pre, post⟩
  · rw [hs] at h; simp at h
  · have hdec := splitFirst_sound pat.data t.data pre post hs
    apply strContains_of_decomp _ _ (s.data ++ pre) post
    rw [strData_append, hdec]
    simp [List.append_assoc]

/-- Every string contains itself. -/
theorem strContains_self (s : String) : strContains s s = true := by
  apply strContains_of_decomp s s [] []
  simp

/-- The keyword dispatch never yields an empty template list. -/
theorem selectTemplates_ne_nil (p : String) : selectTemplates p ≠ [] := by
  unfold selectTemplates
  split
  · decide
  · split <;> decide

/-- Counterexample for C8: with the backend unreachable, two invocations
of `generate` on the *same* request produce different texts when the
random generator draws different templates — the fallback answer is not
deterministic in the request. -/
theorem fallback_nondet_cex :
    generateM (fun _ => .error "Connection refused") 0 90 "2025-01-01 00:00:00" "m"
        ⟨some "pressure alert", some (.vlist [.vstr "msg"]), none⟩ ≠
      generateM (fun _ => .error "Connection refused") 1 90 "2025-01-01 00:00:00" "m"
        ⟨some "pressure alert", some (.vlist [.vstr "msg"]), none⟩ := by
  decide

/-- Claim C8 (amended): when the chat backend raises, `generate` does
not raise — it returns the templated fallback response, which is marked
as produced in fallback mode and embeds one template drawn from the
list selected by keyword match (`pressure`/`temperature`/`general`) on
the lower-cased prompt; but the concrete text depends on the random
draw and the clock, so two invocations with the same request may
differ. -/
theorem fallback_on_backend_error_amended :
    ∀ (e : String) (rchoice rint : Nat) (timestamp modelName : String)
      (req : LLMGenerationRequestM),
      generateM (fun _ => .error e) rchoice rint timestamp modelName req =
        fallbackResponse rchoice rint timestamp modelName req ∧
      strContains (fallbackResponse rchoice rint timestamp modelName req) "폴백 모드" = true ∧
      ∃ b ∈ selectTemplates (pyLower (req.prompt.getD "")),
        strContains (fallbackResponse rchoice rint timestamp modelName req) b = true := by
  intro e rchoice rint timestamp modelName req
  refine ⟨?_, ?_, ?_⟩
  · unfold generateM
    dsimp only
    split <;> rfl
  · unfold fallbackResponse
    apply strContains_append_left
    apply strContains_append_left
    apply strContains_append_left
    apply strContains_append_left
    apply strContains_append_left
    apply strContains_append_left
    apply strContains_append_left
    apply strContains_append_left
    apply strContains_of_decomp _ _ "## PRISM 에이전트 시스템 응답 (".data ")\n\n".data
    decide
  · refine ⟨pyChoice rchoice (selectTemplates (pyLower (req.prompt.getD ""))),
      pyChoice_mem rchoice _ (selectTemplates_ne_nil _), ?_⟩
    unfold fallbackResponse
    apply strContains_append_left
    apply strContains_append_left
    apply strContains_append_left
    apply strContains_append_left
    apply strContains_append_left
    apply strContains_append_left
    apply strContains_append_left
    apply strContains_append_right
    exact strContains_self _

/-- Counterexample for C6: a run whose first backend response requests
the unregistered tool `ghost` and whose second response carries no tool
calls.  The loop does continue — the second backend call happens and the
no-tools return is reached — and the synthesized
`Tool \x27ghost\x27 not found` message is appended to the transcript,
but `tool_results` stays empty: the missing-tool branch records no error
tool-result, contrary to the claim. -/
theorem missing_tool_result_cex :
    fcIterate
        (fun ms => if ms.length ≤ 3 then .ok (some "thinking", [⟨"id1", "ghost", "\x7b\x7d"⟩])
          else .ok (some "done", []))
        (fun _ => none) (fun _ => .ok []) 3
        ⟨[.dictMsg "system" "r" none, .dictMsg "user" "p" none], [], [], 0⟩ =
      .finalized (some "done")
        ⟨[.dictMsg "system" "r" none, .dictMsg "user" "p" none,
          .objMsg (some "thinking") [⟨"id1", "ghost", "\x7b\x7d"⟩],
          .dictMsg "tool" "Tool \x27ghost\x27 not found" (some "id1"),
          .objMsg (some "done") []], [], [], 2⟩ ∧
    (⟨[.dictMsg "system" "r" none, .dictMsg "user" "p" none,
        .objMsg (some "thinking") [⟨"id1", "ghost", "\x7b\x7d"⟩],
        .dictMsg "tool" "Tool \x27ghost\x27 not found" (some "id1"),
        .objMsg (some "done") []], [], [], 2⟩ : FcState).toolResults.length = 0 :=
  ⟨rfl, rfl⟩

/-- Claim C6 (amended): when a tool-call directive names a tool absent
from the registry (and its arguments parse), the loop synthesizes the
`Tool \x27...\x27 not found` error message, appends it to the transcript
as a tool-role message, and continues — no exception is signalled — but
it does *not* record the failed call in `tool_results` or `tools_used`;
those accumulators are left unchanged. -/
theorem missing_tool_continues_amended (lookupTool : ToolExecOracle)
    (loads : JsonLoadsOracle) (st : FcState) (tc : ToolCallDirective) (args : PyDict)
    (hload : loads tc.argumentsJson = .ok args)
    (hmiss : lookupTool tc.funcName = none) :
    processToolCall lookupTool loads st tc =
      ({ st with messages := st.messages ++
          [.dictMsg "tool" ("Tool \x27" ++ tc.funcName ++ "\x27 not found") (some tc.callId)] },
        none) := by
  unfold processToolCall
  rw [hload, hmiss]

/-- Witness for C6 at a concrete missing tool. -/
theorem missing_tool_continues_amended_witness :
    processToolCall (fun _ => none) (fun _ => .ok [])
        ⟨[.dictMsg "system" "r" none], [], [], 1⟩ ⟨"id9", "ghost", "\x7b\x7d"⟩ =
      (⟨[.dictMsg "system" "r" none,
          .dictMsg "tool" ("Tool \x27" ++ "ghost" ++ "\x27 not found") (some "id9")],
        [], [], 1⟩, none) :=
  missing_tool_continues_amended (fun _ => none) (fun _ => .ok [])
    ⟨[.dictMsg "system" "r" none], [], [], 1⟩ ⟨"id9", "ghost", "\x7b\x7d"⟩ [] rfl rfl

/-- Whether a transcript entry is one of the service's own dict
messages (as opposed to a backend assistant message object). -/
def isDictMsg : TranscriptMsg → Bool
  | .dictMsg _ _ _ => true
  | .objMsg _ _ => false

/-- The last element of an all-satisfying list satisfies the
predicate. -/
theorem getLast?_all {α : Type} (p : α → Bool) (ms : List α) (hall : ms.all p = true)
    (m : α) (h : ms.getLast? = some m) : p m = true := by
  have hmem : m ∈ ms := by
    rcases List.mem_getLast?_eq_getLast (Option.mem_def.mpr h) with ⟨hne, heq⟩
    rw [heq]
    exact List.getLast_mem hne
  exact List.all_eq_true.mp hall m hmem

/-- Processing a single directive whose arguments parse always
continues: the state gains exactly one tool-role dict message and the
backend-call count is untouched. -/
theorem processToolCall_ok (lookupTool : ToolExecOracle) (loads : JsonLoadsOracle)
    (st : FcState) (tc : ToolCallDirective)
    (hload : (loads tc.argumentsJson).isOk = true) :
    ∃ st2 m, processToolCall lookupTool loads st tc = (st2, none) ∧
      st2.messages = st.messages ++ [m] ∧ isDictMsg m = true ∧
      st2.backendCalls = st.backendCalls := by
  rcases hl : loads tc.argumentsJson with e | args
  · rw [hl] at hload; simp [Except.isOk, Except.toBool] at hload
  · unfold processToolCall
    rw [hl]
    rcases hlk : lookupTool tc.funcName with _ | exec <;> dsimp only
    · exact ⟨_, _, rfl, rfl, rfl, rfl⟩
    · rcases hex : exec args with e | tr <;> dsimp only
      · exact ⟨_, _, rfl, rfl, rfl, rfl⟩
      · exact ⟨_, _, rfl, rfl, rfl, rfl⟩

/-- Processing a directive list whose arguments all parse continues,
appending one dict message per directive. -/
theorem processToolCalls_ok (lookupTool : ToolExecOracle) (loads : JsonLoadsOracle)
    (hload : ∀ s, (loads s).isOk = true) :
    ∀ (tcs : List ToolCallDirective) (st : FcState),
      ∃ st2 ms, processToolCalls lookupTool loads tcs st = (st2, none) ∧
        st2.messages = st.messages ++ ms ∧ ms.length = tcs.length ∧
        ms.all isDictMsg = true ∧ st2.backendCalls = st.backendCalls := by
  intro tcs
  induction tcs with
  | nil =>
    intro st
    exact ⟨st, [], rfl, by simp, rfl, rfl, rfl⟩
  | cons tc rest ih =>
    intro st
    obtain ⟨st1, m, h1, hmsg1, hdict1, hcalls1⟩ :=
      processToolCall_ok lookupTool loads st tc (hload tc.argumentsJson)
    obtain ⟨st2, ms, h2, hmsg2, hlen2, hall2, hcalls2⟩ := ih st1
    refine ⟨st2, m :: ms, ?_, ?_, ?_, ?_, ?_⟩
    · unfold processToolCalls
      rw [h1]
      dsimp only
      exact h2
    · rw [hmsg2, hmsg1, List.append_assoc]
      rfl
    · simp [hlen2]
    · simp [hdict1, hall2]
    · rw [hcalls2, hcalls1]

/-- Against a backend that requests at least one tool on every call and
never raises, with all tool arguments parsing, the function-calling
loop always exhausts its budget: it makes exactly one backend call per
budget unit, never performs an extra call, and (for a positive budget)
ends with a tool-role dict message as the last transcript entry. -/
theorem fcIterate_always_tools (backend : ChatBackendOracle)
    (lookupTool : ToolExecOracle) (loads : JsonLoadsOracle)
    (hbe : ∀ ms, (backend ms).isOk = true)
    (htools : ∀ ms c tcs, backend ms = .ok (c, tcs) → tcs ≠ [])
    (hload : ∀ s, (loads s).isOk = true) :
    ∀ (fuel : Nat) (st : FcState),
      ∃ st2, fcIterate backend lookupTool loads fuel st = .exhausted st2 ∧
        st2.backendCalls = st.backendCalls + fuel ∧
        (fuel = 0 → st2 = st) ∧
        (1 ≤ fuel →
          (∃ m, st2.messages.getLast? = some m ∧ isDictMsg m = true) ∧
          st.messages.length + 2 ≤ st2.messages.length) := by
  intro fuel
  induction fuel with
  | zero =>
    intro st
    exact ⟨st, rfl, rfl, fun _ => rfl, fun h => absurd h (by omega)⟩
  | succ fuel ih =>
    intro st
    rcases hb : backend st.messages with e | r
    · have := hbe st.messages
      rw [hb] at this
      simp [Except.isOk, Except.toBool] at this
    · rcases r with ⟨content, tcs⟩
      have htne : tcs ≠ [] := htools st.messages content tcs hb
      have hie : tcs.isEmpty = false := by
        cases tcs with
        | nil => exact absurd rfl htne
        | cons a b => rfl
      obtain ⟨st2, ms, hp, hmsg, hlen, hall, hcalls⟩ :=
        processToolCalls_ok lookupTool loads hload tcs
          { st with
              messages := st.messages ++ [.objMsg content tcs]
              backendCalls := st.backendCalls + 1 }
      obtain ⟨st3, h3, hcalls3, hzero3, hpos3⟩ := ih st2
      have hmne : ms ≠ [] := by
        intro hnil
        rw [hnil] at hlen
        exact htne (List.length_eq_zero.mp hlen.symm)
      refine ⟨st3, ?_, ?_, ?_, ?_⟩
      · unfold fcIterate
        rw [hb]
        dsimp only
        rw [hie]
        simp only [Bool.false_eq_true, if_false]
        rw [hp]
        exact h3
      · rw [hcalls3, hcalls]
        dsimp only
        omega
      · intro h
        exact absurd h (by omega)
      · intro _
        rcases Nat.eq_zero_or_pos fuel with hf | hf
        · rw [hzero3 hf] at h3 hcalls3 ⊢
          subst hf
          constructor
          · rcases hlast : ms.getLast? with _ | m
            · exact absurd (List.getLast?_eq_none_iff.mp hlast) hmne
            · refine ⟨m, ?_, getLast?_all isDictMsg ms hall m hlast⟩
              rw [hmsg]
              dsimp only
              rw [List.getLast?_append_of_ne_nil _ hmne]
              exact hlast
          · rw [hmsg]
            dsimp only
            simp only [List.length_append, List.length_cons, List.length_nil]
            have : 1 ≤ ms.length := by
              cases ms with
              | nil => exact absurd rfl hmne
              | cons a b => simp
            omega
        · obtain ⟨hlast3, hlen3⟩ := hpos3 hf
          refine ⟨hlast3, ?_⟩
          have : st2.messages.length = st.messages.length + 1 + ms.length := by
            rw [hmsg]
            dsimp only
            simp only [List.length_append, List.length_cons, List.length_nil]
          omega

/-- `fcFinish` raises the `session_id` `AttributeError` whenever the
transcript is short or ends in one of the service's own dict messages
(only a trailing backend message object diverts it to the `.get`
`AttributeError` first). -/
theorem fcFinish_dict_or_short (st : FcState)
    (h : st.messages.length ≤ 2 ∨
      ∃ m, st.messages.getLast? = some m ∧ isDictMsg m = true) :
    fcFinish st = .error attributeErrorSessionId := by
  unfold fcFinish
  dsimp only
  by_cases hlen : st.messages.length > 2
  · rcases h with hle | ⟨m, hm, hd⟩
    · omega
    · cases m with
      | dictMsg r c i => rw [if_pos hlen, hm]
      | objMsg c t => simp [isDictMsg] at hd
  · rw [if_neg hlen]

/-- Against a model that never emits `<final>`, always emits a
`<tool_call>` JSON object that parses to a dict, and whose named tool
executes without raising, the `generate_with_tools` loop burns its whole
budget: `fuel` in-loop calls plus the finalize call, returning the
stripped finalize output. -/
theorem gwtLoop_always_tools (gen : String → String) (loads2 : String → Option PyVal)
    (reg : LegacyRegistry) (httpO : LegacyHttpOracle) (clientId : String)
    (hfin : ∀ p, findFinal (gen p) = none)
    (htc : ∀ p, (findToolCallJson (gen p)).isSome = true)
    (hload2 : ∀ j, ∃ obj, loads2 j = some (.vdict obj) ∧
      (executeToolLegacy reg httpO clientId (pyGetD obj "tool_name" .vnone)
        (pyGetD obj "arguments" (.vdict []))).isOk = true) :
    ∀ (fuel : Nat) (prompt : String) (calls : Nat),
      ∃ p, gwtLoop gen loads2 reg httpO clientId fuel prompt calls =
        (.ok (pyStrip (gen p)), calls + fuel + 1) := by
  intro fuel
  induction fuel with
  | zero =>
    intro prompt calls
    refine ⟨prompt ++ "\nPlease provide the final answer wrapped in <final> ... </final>.", ?_⟩
    simp only [gwtLoop]
    rw [hfin]
  | succ fuel ih =>
    intro prompt calls
    obtain ⟨cj, hcj⟩ := Option.isSome_iff_exists.mp (htc prompt)
    obtain ⟨obj, hobj, hok⟩ := hload2 cj
    rcases hex : executeToolLegacy reg httpO clientId (pyGetD obj "tool_name" .vnone)
        (pyGetD obj "arguments" (.vdict [])) with e | tr
    · rw [hex] at hok
      simp [Except.isOk, Except.toBool] at hok
    · obtain ⟨p, hp⟩ := ih (prompt ++ "\nTool \x27" ++ pyStr (pyGetD obj "tool_name" PyVal.vnone) ++
        "\x27 result:\n" ++ tr ++
        "\nNow, based on the tool result, either call another tool or provide the final answer.\n")
        (calls + 1)
      refine ⟨p, ?_⟩
      simp only [gwtLoop]
      rw [hfin prompt]
      dsimp only
      rw [hcj]
      dsimp only
      rw [hobj]
      dsimp only
      rw [hex]
      dsimp only
      rw [hp]
      have h : calls + 1 + fuel + 1 = calls + (fuel + 1) + 1 := by omega
      rw [h]

/-- A model output that always requests the tool `t` and never emits
`<final>`. -/
def cexGen : String → String :=
  fun _ => "<tool_call>\x7b\x22tool_name\x22: \x22t\x22, \x22arguments\x22: \x7b\x7d\x7d</tool_call>"

/-- A `json.loads` oracle parsing that tool call. -/
def cexLoads : String → Option PyVal :=
  fun _ => some (.vdict [("tool_name", .vstr "t"), ("arguments", .vdict [])])

/-- A client registry holding the tool `t` for client `c`. -/
def cexReg : LegacyRegistry := [("c", [("t", ⟨"t", "d", .vdict [], "http://x", "POST"⟩)])]

/-- An HTTP oracle answering every tool invocation with a text body. -/
def cexHttp : LegacyHttpOracle := fun _ _ => .textBody "ok"

/-- C1 counterexample: with iteration budget `max_tool_calls = 1` and a
backend that requests a tool on every call, `generate_with_tools` makes
3 backend `generate` calls — the `range(max_tool_calls + 1)` loop makes
N + 1 calls and the post-loop finalize call makes one more — exceeding
the claimed bound of N + 1 = 2. -/
theorem orchestration_budget_cex :
    (generateWithTools cexGen cexLoads cexReg cexHttp "c" [] "hi" 1).2 = 3 ∧
      ¬ (3 ≤ 1 + 1) := by
  constructor
  · decide
  · decide

/-- C1 (amended): against a backend that requests at least one tool on
every call, the two orchestration loops behave as follows.  The
function-calling loop of `_invoke_agent_with_function_calling` makes
exactly `maxToolCalls` backend calls — it performs NO final no-tools
completion call — and its post-loop return raises the `session_id`
`AttributeError`, so `invoke_agent` hands the caller the failure
`AgentResponse` built from that error (a result object, not an
exception, but not the final call text and with no
`max_iterations_reached` metadata).  The text-marker loop of
`ToolOrchestrator.generate_with_tools` with budget `n` makes exactly
`n + 2` backend `generate` calls (the `range(n + 1)` loop plus one
finalize call) and returns the stripped output of the finalize call. -/
theorem orchestration_budget_amended
    (backend : ChatBackendOracle) (lookupTool : ToolExecOracle) (loads : JsonLoadsOracle)
    (agent : AgentM) (req : AgentInvokeRequestM)
    (gen : String → String) (loads2 : String → Option PyVal)
    (reg : LegacyRegistry) (httpO : LegacyHttpOracle) (clientId : String)
    (tools : List LegacyTool) (basePrompt : String) (n : Nat)
    (hbe : ∀ ms, (backend ms).isOk = true)
    (htools : ∀ ms c tcs, backend ms = .ok (c, tcs) → tcs ≠ [])
    (hload : ∀ s, (loads s).isOk = true)
    (hut : req.useTools = true) (hat : agent.tools ≠ [])
    (hfin : ∀ p, findFinal (gen p) = none)
    (htc : ∀ p, (findToolCallJson (gen p)).isSome = true)
    (hload2 : ∀ j, ∃ obj, loads2 j = some (.vdict obj) ∧
      (executeToolLegacy reg httpO clientId (pyGetD obj "tool_name" .vnone)
        (pyGetD obj "arguments" (.vdict []))).isOk = true) :
    (∃ st2,
      fcIterate backend lookupTool loads req.maxToolCalls (fcInitState agent req) =
          .exhausted st2 ∧
        st2.backendCalls = req.maxToolCalls ∧
        invokeAgentFC backend lookupTool loads agent req = .error attributeErrorSessionId ∧
        invokeAgent backend lookupTool loads agent req =
          agentCallFailureResponse attributeErrorSessionId) ∧
    ((generateWithTools gen loads2 reg httpO clientId tools basePrompt n).2 = n + 2 ∧
      ∃ p, (generateWithTools gen loads2 reg httpO clientId tools basePrompt n).1 =
        .ok (pyStrip (gen p))) := by
  constructor
  · obtain ⟨st2, hiter, hcalls, hzero, hpos⟩ :=
      fcIterate_always_tools backend lookupTool loads hbe htools hload
        req.maxToolCalls (fcInitState agent req)
    have hcalls2 : st2.backendCalls = req.maxToolCalls := by
      rw [hcalls]
      simp [fcInitState]
    have hfcf : fcFinish st2 = .error attributeErrorSessionId := by
      apply fcFinish_dict_or_short
      rcases Nat.eq_zero_or_pos req.maxToolCalls with h0 | h1
      · left
        rw [hzero h0]
        simp [fcInitState]
      · right
        exact (hpos h1).1
    have hFC : invokeAgentFC backend lookupTool loads agent req =
        .error attributeErrorSessionId := by
      unfold invokeAgentFC
      rw [hiter]
      exact hfcf
    have hie : agent.tools.isEmpty = false := by
      cases hcase : agent.tools with
      | nil => exact absurd hcase hat
      | cons a l => rfl
    have hcond : (req.useTools && !agent.tools.isEmpty) = true := by
      rw [hut, hie]
      rfl
    have hIA : invokeAgent backend lookupTool loads agent req =
        agentCallFailureResponse attributeErrorSessionId := by
      unfold invokeAgent
      dsimp only
      rw [hcond, if_pos rfl, hFC]
    exact ⟨st2, hiter, hcalls2, hFC, hIA⟩
  · obtain ⟨p, hp⟩ := gwtLoop_always_tools gen loads2 reg httpO clientId hfin htc hload2
      (n + 1)
      ("System:\n" ++
        "You are a helpful assistant that can use tools. Decide whether a tool is needed. If so, emit a tool call. Otherwise, output the final answer." ++
        "\n\n" ++ buildToolsPrompt tools ++ "\n\nUser:\n" ++ basePrompt ++ "\n") 0
    constructor
    · unfold generateWithTools
      dsimp only
      rw [hp]
      dsimp only
      omega
    · refine ⟨p, ?_⟩
      unfold generateWithTools
      dsimp only
      rw [hp]

/-- A backend that answers every chat completion with one tool-call
directive. -/
def witBackend : ChatBackendOracle :=
  fun _ => .ok (some "x", [⟨"id1", "t", "\x7b\x7d"⟩])

/-- A tool lookup that knows no tools. -/
def witLookup : ToolExecOracle := fun _ => none

/-- An argument parser that always yields the empty dict. -/
def witLoads : JsonLoadsOracle := fun _ => .ok []

/-- A tool-enabled agent. -/
def witAgent : AgentM := ⟨"a", "r", ["t"]⟩

/-- An invoke request with budget 2 and tools enabled. -/
def witReq : AgentInvokeRequestM := ⟨"p", true, 2⟩

/-- C1 witness: the amended budget theorem instantiated at a concrete
always-tools backend on both orchestration paths. -/
theorem orchestration_budget_amended_witness :
    (∃ st2,
      fcIterate witBackend witLookup witLoads witReq.maxToolCalls
          (fcInitState witAgent witReq) = .exhausted st2 ∧
        st2.backendCalls = witReq.maxToolCalls ∧
        invokeAgentFC witBackend witLookup witLoads witAgent witReq =
          .error attributeErrorSessionId ∧
        invokeAgent witBackend witLookup witLoads witAgent witReq =
          agentCallFailureResponse attributeErrorSessionId) ∧
    ((generateWithTools cexGen cexLoads cexReg cexHttp "c" [] "hi" 1).2 = 1 + 2 ∧
      ∃ p, (generateWithTools cexGen cexLoads cexReg cexHttp "c" [] "hi" 1).1 =
        .ok (pyStrip (cexGen p))) :=
  orchestration_budget_amended witBackend witLookup witLoads witAgent witReq
    cexGen cexLoads cexReg cexHttp "c" [] "hi" 1
    (fun _ => rfl)
    (fun ms c tcs h hnil => by rw [hnil] at h; simp [witBackend] at h)
    (fun _ => rfl) rfl (by simp [witAgent])
    (fun _ => rfl) (fun _ => rfl)
    (fun _ => ⟨[("tool_name", .vstr "t"), ("arguments", .vdict [])], rfl, rfl⟩)
